import Mathlib

/-!
Verification of the QR-code structural decoder in `src/qr.ts` (current
variant) and `src/unnamed/part_000` (legacy variant) of
kevinychen/google-sheet-qrcode.

Bits are modelled as natural numbers 0/1 (the TypeScript type `Bit = 0 | 1`),
grids as lists of lists, string manipulation on binary renderings as
`List Char` operations mirroring the JavaScript string methods used by the
source.
-/

set_option maxRecDepth 100000
set_option exponentiation.threshold 40000

/-- Big-endian value of a bit list: `parseInt(bits.join(""), 2)` for 0/1 bits. -/
def binVal (bits : List ℕ) : ℕ :=
  bits.foldl (fun a b => 2 * a + b) 0

/-- `n.toString(2)` for a JavaScript number holding a natural: binary digits,
most significant first, and `"0"` for zero (`Nat.toDigits 2` has exactly this
behavior). -/
def toBin (n : ℕ) : List Char :=
  Nat.toDigits 2 n

/-- JavaScript `s.replace("0", "")`: remove only the first occurrence of `'0'`. -/
def replaceFirstZero : List Char → List Char
  | [] => []
  | c :: t => if c = '0' then t else c :: replaceFirstZero t

/-- Sum of the 16 binary digits of a number below 2^16. -/
def popCount16 (m : ℕ) : ℕ :=
  m % 2 + m / 2 % 2 + m / 4 % 2 + m / 8 % 2 + m / 16 % 2 + m / 32 % 2 + m / 64 % 2 +
    m / 128 % 2 + m / 256 % 2 + m / 512 % 2 + m / 1024 % 2 + m / 2048 % 2 +
    m / 4096 % 2 + m / 8192 % 2 + m / 16384 % 2 + m / 32768 % 2

/-- Sum of the 64 low binary digits. -/
def popCount64 (m : ℕ) : ℕ :=
  popCount16 (m % 65536) + popCount16 (m / 65536 % 65536) +
    popCount16 (m / 4294967296 % 65536) + popCount16 (m / 281474976710656 % 65536)

/-- Number of 1 bits (true Hamming weight of a natural number), folded 64 bits
per iteration with an explicit fuel so that kernel reduction stays shallow. -/
def popCountAux : ℕ → ℕ → ℕ → ℕ
  | 0, _, acc => acc
  | fuel + 1, n, acc =>
    if n = 0 then acc
    else popCountAux fuel (n / 18446744073709551616) (acc + popCount64 n)

def popCount (n : ℕ) : ℕ :=
  popCountAux n n 0

/-- One-bit-per-step reference for `popCount`, used only to validate the
64-bit chunking on small inputs. -/
def popCountRef : ℕ → ℕ → ℕ
  | 0, _ => 0
  | fuel + 1, n => if n = 0 then 0 else n % 2 + popCountRef fuel (n / 2)

/-- `Math.min(...list)` over a nonempty list (0 for an empty one, unused). -/
def jsMin : List ℕ → ℕ
  | [] => 0
  | h :: t => t.foldl Nat.min h

/-- `BCH_encode` from `getFormatBits` (src/qr.ts lines 240-254, identical in
src/unnamed/part_000 lines 99-113): append the (15,5) BCH remainder of the
masked 5-bit value under generator 0b10100110111, then XOR with the low mask. -/
def BCH_encode (bits : ℕ) : ℕ :=
  let upperMask := 0b10101
  let lowerMask := 0b10010
  let g := 0b10100110111
  let encoded :=
    [14, 13, 12, 11, 10].foldl
      (fun e i => if (e >>> i) % 2 = 1 then e ^^^ (g <<< (i - 10)) else e)
      ((bits ^^^ upperMask) <<< 10)
  (bits <<< 10) + (encoded ^^^ lowerMask)

/-- `BCH_options = range(32).map(BCH_encode)`: the 32 valid format codewords. -/
def BCH_options : List ℕ :=
  (List.range 32).map BCH_encode

/-- The buggy weight used by src/qr.ts line 261:
`(x ^ val).toString(2).replace("0", "").length` — the length of the binary
string after removing only the FIRST zero character. -/
def jsWeight (x : ℕ) : ℕ :=
  (replaceFirstZero (toBin x)).length

/-- Candidate selection of `getFormatBits` in src/qr.ts (lines 260-262):
reads only the horizontal format copy. -/
def bestOptionIndex (originalFormatBits : List ℕ) : ℕ :=
  let originalFormatInt := binVal originalFormatBits
  let hamming := BCH_options.map (fun val => jsWeight (originalFormatInt ^^^ val))
  hamming.indexOf (jsMin hamming)

/-- Candidate selection of `getFormatBits` in src/unnamed/part_000
(lines 158-163): reads both the horizontal and vertical format copies and
measures `((h ^ val).toString(2) + (v ^ val).toString(2)).replace("0", "").length`
(again only the first zero of the concatenation is removed). -/
def bestOptionIndexDual (horizontalBits verticalBits : List ℕ) : ℕ :=
  let horizontalInt := binVal horizontalBits
  let verticalInt := binVal verticalBits
  let hamming := BCH_options.map
    (fun val =>
      (replaceFirstZero (toBin (horizontalInt ^^^ val) ++ toBin (verticalInt ^^^ val))).length)
  hamming.indexOf (jsMin hamming)

/-- Modelled from the spec: the selection the spec describes — minimize the
total TRUE Hamming weight of (horizontal XOR option) concatenated with
(vertical XOR option), ties broken by the smallest index. -/
def specBestOptionIndexDual (horizontalBits verticalBits : List ℕ) : ℕ :=
  let horizontalInt := binVal horizontalBits
  let verticalInt := binVal verticalBits
  let hamming := BCH_options.map
    (fun val => popCount (horizontalInt ^^^ val) + popCount (verticalInt ^^^ val))
  hamming.indexOf (jsMin hamming)

/-- The 15 format bits of a chosen option (src/qr.ts line 284). -/
def formatBitsOf (option : ℕ) : List ℕ :=
  (List.range 15).map (fun i => (option >>> (14 - i)) % 2)

/-- The eight mask predicates of `getMaskGrid` (src/qr.ts lines 367-377),
indexed by the 3-bit mask value. -/
def maskFunctions (k i j : ℕ) : Bool :=
  match k with
  | 0 => decide (i * j % 2 + i * j % 3 = 0)
  | 1 => decide ((i / 2 + j / 3) % 2 = 0)
  | 2 => decide ((i * j % 3 + i + j) % 2 = 0)
  | 3 => decide ((i * j % 3 + i * j) % 2 = 0)
  | 4 => decide (i % 2 = 0)
  | 5 => decide ((i + j) % 2 = 0)
  | 6 => decide ((i + j) % 3 = 0)
  | 7 => decide (j % 3 = 0)
  | _ => false

/-- The two redundant 15-coordinate format-information sequences
(`getFormatCoordinates`, src/qr.ts lines 104-109). -/
structure FormatCoordinates where
  horizontal : List (ℕ × ℕ)
  vertical : List (ℕ × ℕ)

def getFormatCoordinates (L : ℕ) : FormatCoordinates :=
  { horizontal :=
      [0, 1, 2, 3, 4, 5, 7, L - 8, L - 7, L - 6, L - 5, L - 4, L - 3, L - 2, L - 1].map
        (fun c => (8, c)),
    vertical :=
      [L - 1, L - 2, L - 3, L - 4, L - 5, L - 6, L - 7, 8, 7, 5, 4, 3, 2, 1, 0].map
        (fun r => (r, 8)) }

/-- The `dataAreas` L×L boolean matrix is encoded as an L²-bit natural number
whose bit `r * L + c` holds `dataAreas[r][c]`.  Every index the source ever
reads or writes satisfies `0 ≤ r < L` and `0 ≤ c < L`, so the encoding is
faithful.  `gridGet` is the read `dataAreas[r][c]`. -/
def gridGet (g L r c : ℕ) : Bool :=
  Nat.testBit g (r * L + c)

/-- The write `dataAreas[r][c] = false` on the encoded matrix. -/
def gridClear (g L r c : ℕ) : ℕ :=
  g ^^^ (g &&& (1 <<< (r * L + c)))

/-- Second alignment coordinate per version (src/qr.ts lines 125-128).  The
source stores -1 at index 0, which is never read since version ≥ 1; we store
0 there instead. -/
def secondCoordinateTable : List ℕ :=
  [0, 6, 18, 22, 26, 30, 34, 22, 24, 26, 28, 30, 32, 34, 26, 26, 26, 30, 30, 30, 34, 28,
    26, 30, 28, 32, 30, 34, 26, 30, 26, 30, 34, 30, 34, 30, 24, 28, 32, 26, 30]

/-- `getDataAreas` (src/qr.ts lines 111-173): mark every module as data, then
clear finder/separator blocks, alignment patterns (5×5 blocks whose center is
still marked, centers being ≥ 6 so the `± 2` offsets stay in range),
timing rows, format coordinates, the fixed dark module, and for version ≥ 7
the version-information blocks. -/
def getDataAreas (L version : ℕ) (fc : FormatCoordinates) : ℕ :=
  let d0 := 2 ^ (L * L) - 1
  let d1 := (List.range 8).foldl
    (fun d i => (List.range 8).foldl
      (fun d j =>
        gridClear (gridClear (gridClear d L i j) L i (L - 1 - j)) L (L - 1 - i) j) d)
    d0
  let numCoordinates := if version = 1 then 1 else version / 7 + 2
  let secondCoordinate := secondCoordinateTable.getD version 0
  let lastCoordinate := L - 7
  let alignmentCoordinates := 6 :: secondCoordinate ::
    (List.range (numCoordinates - 2)).map
      (fun i =>
        (secondCoordinate * i + lastCoordinate * (numCoordinates - 2 - i)) /
          (numCoordinates - 2))
  let d2 := alignmentCoordinates.foldl
    (fun d r => alignmentCoordinates.foldl
      (fun d c =>
        if gridGet d L r c then
          (List.range 5).foldl
            (fun d dr => (List.range 5).foldl
              (fun d dc => gridClear d L (r - 2 + dr) (c - 2 + dc)) d)
            d
        else d)
      d)
    d1
  let d3 := (List.range' 8 (L - 16)).foldl
    (fun d i => gridClear (gridClear d L 6 i) L i 6) d2
  let d4 := fc.horizontal.foldl (fun d p => gridClear d L p.1 p.2) d3
  let d5 := fc.vertical.foldl (fun d p => gridClear d L p.1 p.2) d4
  let d6 := gridClear d5 L (L - 8) 8
  if 7 ≤ version then
    (List.range 6).foldl
      (fun d i => (List.range' (L - 11) 3).foldl
        (fun d j => gridClear (gridClear d L i j) L j i) d)
      d6
  else d6

/-- `count(DataAreaMap == true)`: the number of set bits of the encoding. -/
def countTrue (g : ℕ) : ℕ :=
  popCount g

/-- JavaScript read `dataAreas[r][c]` with possibly negative indices
(undefined, hence falsy, outside the grid). -/
def jsGet (g L : ℕ) (r c : ℤ) : Bool :=
  if 0 ≤ r ∧ 0 ≤ c then gridGet g L r.toNat c.toNat else false

/-- The zigzag loop of `getDataCoordinates` (src/qr.ts lines 424-454), with an
explicit fuel that upper-bounds the number of loop iterations; the accumulator
holds the pushed coordinates in reverse order. -/
def getDataCoordinatesAux (L : ℕ) (g : ℕ) :
    ℕ → ℤ → ℤ → ℤ → List (ℤ × ℤ) → List (ℤ × ℤ)
  | 0, _, _, _, acc => acc.reverse
  | fuel + 1, r, c, dr, acc =>
    if c < 0 then acc.reverse
    else
      let acc1 := if jsGet g L r c then (r, c) :: acc else acc
      let acc2 := if jsGet g L r (c - 1) then (r, c - 1) :: acc1 else acc1
      let next : ℤ × ℤ × ℤ :=
        if r + dr = -1 then (0, 1, c - 2)
        else if r + dr = (L : ℤ) then ((L : ℤ) - 1, -1, c - 2)
        else (r + dr, dr, c)
      let c2 := if next.2.2 = 6 then next.2.2 - 1 else next.2.2
      getDataCoordinatesAux L g fuel next.1 c2 next.2.1 acc2

def getDataCoordinates (L : ℕ) (g : ℕ) : List (ℤ × ℤ) :=
  getDataCoordinatesAux L g ((L + 2) * (L + 2)) ((L : ℤ) - 1) ((L : ℤ) - 1) (-1) []

/-- The same zigzag loop, keeping only the count of pushed coordinates (used
to evaluate the length of the huge coordinate lists without materializing
them). -/
def dataCoordinatesCountAux (L : ℕ) (g : ℕ) : ℕ → ℤ → ℤ → ℤ → ℕ → ℕ
  | 0, _, _, _, n => n
  | fuel + 1, r, c, dr, n =>
    if c < 0 then n
    else
      let n1 := if jsGet g L r c then n + 1 else n
      let n2 := if jsGet g L r (c - 1) then n1 + 1 else n1
      let next : ℤ × ℤ × ℤ :=
        if r + dr = -1 then (0, 1, c - 2)
        else if r + dr = (L : ℤ) then ((L : ℤ) - 1, -1, c - 2)
        else (r + dr, dr, c)
      let c2 := if next.2.2 = 6 then next.2.2 - 1 else next.2.2
      dataCoordinatesCountAux L g fuel next.1 c2 next.2.1 n2

def getDataCoordinatesCount (L : ℕ) (g : ℕ) : ℕ :=
  dataCoordinatesCountAux L g ((L + 2) * (L + 2)) ((L : ℤ) - 1) ((L : ℤ) - 1) (-1) 0

/-- Indicator of a data module at (possibly negative) zigzag coordinates. -/
def bitN (g L : ℕ) (r c : ℤ) : ℕ :=
  if jsGet g L r c then 1 else 0

/-- Number of data modules the zigzag can see in column `c` (0 for columns
outside the grid). -/
def colSumZ (g L : ℕ) (c : ℤ) : ℕ :=
  ∑ r in Finset.range L, bitN g L (r : ℤ) c

/-- Modelled from the spec: "the version's fixed total-codeword count".  The
repository has no total-codeword table (its `NUM_CODEWORDS_LIST` stores data
codewords per error-correction level only), so the per-version total number
of codewords (data + error correction) is taken from the QR standard
(ISO/IEC 18004); index 0 is unused. -/
def totalCodewords : List ℕ :=
  [0, 26, 44, 70, 100, 134, 172, 196, 242, 292, 346, 404, 466, 532, 581, 655, 733,
    815, 901, 991, 1085, 1156, 1258, 1364, 1474, 1588, 1706, 1828, 1921, 2051, 2185,
    2323, 2465, 2611, 2761, 2876, 3034, 3196, 3362, 3532, 3706]

/-- Modelled from the spec (QR standard, ISO/IEC 18004): the number of
remainder bits per version — data modules left over after all codewords,
0 for versions 1 and 7-13 and 35-40, 7 for 2-6, 3 for 14-20 and 28-34,
4 for 21-27; index 0 is unused. -/
def remainderBits : List ℕ :=
  [0, 0, 7, 7, 7, 7, 7, 0, 0, 0, 0, 0, 0, 0, 3, 3, 3, 3, 3, 3, 3, 4, 4, 4, 4, 4, 4, 4,
    3, 3, 3, 3, 3, 3, 3, 0, 0, 0, 0, 0, 0]

/-- One pass of the round-robin interleaving loop of `getCodewords`
(src/qr.ts lines 573-580): for each block list, shift its head (if any) and
assign it the next physical index; returns the assignments made, the
remaining lists, and the next index. -/
def robinStep : List (List ℕ) → ℕ → List (ℕ × ℕ) × List (List ℕ) × ℕ
  | [], index => ([], [], index)
  | [] :: rest, index =>
    let s := robinStep rest index
    (s.1, [] :: s.2.1, s.2.2)
  | (h :: t) :: rest, index =>
    let s := robinStep rest (index + 1)
    ((h, index) :: s.1, t :: s.2.1, s.2.2)

/-- The `while (lists.some(list => list.length > 0))` loop of `getCodewords`,
with fuel bounding the number of rounds; collects the assignments
`interleaving[list.shift()] = index++` in order. -/
def roundRobin : ℕ → List (List ℕ) → ℕ → List (ℕ × ℕ)
  | 0, _, _ => []
  | fuel + 1, lists, index =>
    if lists.all List.isEmpty then []
    else
      let s := robinStep lists index
      s.1 ++ roundRobin fuel s.2.1 s.2.2

/-- The block index lists of `getCodewords` (src/qr.ts lines 566-570):
block b of size `num` holds the consecutive logical codeword indices
starting at the running total. -/
def blockListsAux : ℕ → List ℕ → List (List ℕ)
  | _, [] => []
  | index, num :: rest =>
    (List.range num).map (fun n => n + index) :: blockListsAux (index + num) rest

/-- The interleaving array construction of `getCodewords` (src/qr.ts lines
565-582): an array of length `maxNumCodewords` initialised with the sentinel
`maxNumCodewords`, then `interleaving[list.shift()] = index++` assignments in
round-robin block order. -/
def interleavingOf (maxN : ℕ) (nums : List ℕ) : List ℕ :=
  (roundRobin (nums.sum + 1) (blockListsAux 0 nums) 0).foldl
    (fun arr p => arr.set p.1 p.2) (List.replicate maxN maxN)

/-- `NUM_CODEWORDS_LIST` (src/qr.ts lines 15-57): per version 1..40, the
run-length-encoded data-codeword block sizes for the four error-correction
levels, in the source object order L, M, Q, H; entry `version - 1` holds
version `version`. -/
def NUM_CODEWORDS_LIST : List (List (List ℕ)) :=
  [[[1,19], [1,16], [1,13], [1,9]],
    [[1,34], [1,28], [1,22], [1,16]],
    [[1,55], [1,44], [2,17], [2,13]],
    [[1,80], [2,32], [2,24], [4,9]],
    [[1,108], [2,43], [2,15,2,16], [2,11,2,12]],
    [[2,68], [4,27], [4,19], [4,15]],
    [[2,78], [4,31], [2,14,4,15], [4,13,1,14]],
    [[2,97], [2,38,2,39], [4,18,2,19], [4,14,2,15]],
    [[2,116], [3,36,2,37], [4,16,4,17], [4,12,4,13]],
    [[2,68,2,69], [4,43,1,44], [6,19,2,20], [6,15,2,16]],
    [[4,81], [1,50,4,51], [4,22,4,23], [3,12,8,13]],
    [[2,92,2,93], [6,36,2,37], [4,20,6,21], [7,14,4,15]],
    [[4,107], [8,37,1,38], [8,20,4,21], [12,11,4,12]],
    [[3,115,1,116], [4,40,5,41], [11,16,5,17], [11,12,5,13]],
    [[5,87,1,88], [5,41,5,42], [5,24,7,25], [11,12,7,13]],
    [[5,98,1,99], [7,45,3,46], [15,19,2,20], [3,15,13,16]],
    [[1,107,5,108], [10,46,1,47], [1,22,15,23], [2,14,17,15]],
    [[5,120,1,121], [9,43,4,44], [17,22,1,23], [2,14,19,15]],
    [[3,113,4,114], [3,44,11,45], [17,21,4,22], [9,13,16,14]],
    [[3,107,5,108], [3,41,13,42], [15,24,5,25], [15,15,10,16]],
    [[4,116,4,117], [17,42], [17,22,6,23], [19,16,6,17]],
    [[2,111,7,112], [17,46], [7,24,16,25], [34,13]],
    [[4,121,5,122], [4,47,14,48], [11,24,14,25], [16,15,14,16]],
    [[6,117,4,118], [6,45,14,46], [11,24,16,25], [30,16,2,17]],
    [[8,106,4,107], [8,47,13,48], [7,24,22,25], [22,15,13,16]],
    [[10,114,2,115], [19,46,4,47], [28,22,6,23], [33,16,4,17]],
    [[8,122,4,123], [22,45,3,46], [8,23,26,24], [12,15,28,16]],
    [[3,117,10,118], [3,45,23,46], [4,24,31,25], [11,15,31,16]],
    [[7,116,7,117], [21,45,7,46], [1,23,37,24], [19,15,26,16]],
    [[5,115,10,116], [19,47,10,48], [15,24,25,25], [23,15,25,16]],
    [[13,115,3,116], [2,46,29,47], [42,24,1,25], [23,15,28,16]],
    [[17,115], [10,46,23,47], [10,24,35,25], [19,15,35,16]],
    [[17,115,1,116], [14,46,21,47], [29,24,19,25], [11,15,46,16]],
    [[13,115,6,116], [14,46,23,47], [44,24,7,25], [59,16,1,17]],
    [[12,121,7,122], [12,47,26,48], [39,24,14,25], [22,15,41,16]],
    [[6,121,14,122], [6,47,34,48], [46,24,10,25], [2,15,64,16]],
    [[17,122,4,123], [29,46,14,47], [49,24,10,25], [24,15,46,16]],
    [[4,122,18,123], [13,46,32,47], [48,24,14,25], [42,15,32,16]],
    [[20,117,4,118], [40,47,7,48], [43,24,22,25], [10,15,67,16]],
    [[19,118,6,119], [18,47,31,48], [34,24,34,25], [20,15,61,16]]]

/-- Run-length decoding in `getNumCodewordsList` (src/qr.ts lines 58-69):
each `[repeat, number]` pair expands to `repeat` copies of `number`. -/
def runLenDecode : List ℕ → List ℕ
  | a :: b :: rest => List.replicate a b ++ runLenDecode rest
  | _ => []

/-- `getNumCodewordsList` (src/qr.ts lines 58-69): the four decoded
data-codeword block-size lists of a version, in order L, M, Q, H. -/
def getNumCodewordsList (version : ℕ) : List (List ℕ) :=
  (NUM_CODEWORDS_LIST.getD (version - 1) []).map runLenDecode

/-- `maxNumCodewords` of `getCodewords` (src/qr.ts lines 512-514):
the largest total data-codeword count over the four levels. -/
def maxNumCodewords (version : ℕ) : ℕ :=
  ((getNumCodewordsList version).map List.sum).foldr max 0

/-- Total data codewords of a (version, level) pair, level indexing the
source object order L, M, Q, H. -/
def numDataCodewords (version level : ℕ) : ℕ :=
  ((getNumCodewordsList version).getD level []).sum

/-- The `interleavings` entry of a (version, level) pair
(src/qr.ts lines 565-582). -/
def interleavings (version level : ℕ) : List ℕ :=
  interleavingOf (maxNumCodewords version) ((getNumCodewordsList version).getD level [])

/-- The four encoding modes of `getEncodingModes` (src/qr.ts lines 71-94). -/
inductive EncodingMode where
  | Numeric
  | Alphanumeric
  | Byte
  | Unknown
deriving DecidableEq

/-- `lengthBlockSize` per mode and version (src/qr.ts lines 71-94). -/
def lengthBlockSize (version : ℕ) : EncodingMode → ℕ
  | .Numeric => if version ≤ 9 then 10 else if version ≤ 26 then 12 else 14
  | .Alphanumeric => if version ≤ 9 then 9 else if version ≤ 26 then 11 else 13
  | .Byte => if version ≤ 9 then 8 else 16
  | .Unknown => 8

/-- `dataBlockSize` per mode (src/qr.ts lines 71-94). -/
def dataBlockSize : EncodingMode → ℕ
  | .Numeric => 10
  | .Alphanumeric => 11
  | .Byte => 8
  | .Unknown => 8

/-- Bit `n` of the codeword stream: `codewords[r] ? codewords[r][c] : 0` with
`(r, c) = codewordPos(n) = (⌊n/8⌋, n % 8)` (src/qr.ts lines 796-799): a row
past the end of the codeword list yields 0. -/
def bitAt (codewords : List (List ℕ)) (n : ℕ) : ℕ :=
  match codewords[n / 8]? with
  | some row => row.getD (n % 8) 0
  | none => 0

/-- `getEncodingMode` (src/qr.ts lines 635-642): match the first four bits
of the first codeword against "0001", "0010", "0100"; anything else is
Unknown. -/
def getEncodingMode (codewords : List (List ℕ)) : EncodingMode :=
  let bits := (codewords.getD 0 []).take 4
  if bits = [0, 0, 0, 1] then .Numeric
  else if bits = [0, 0, 1, 0] then .Alphanumeric
  else if bits = [0, 1, 0, 0] then .Byte
  else .Unknown

/-- `getLength` (src/qr.ts lines 693-734): the big-endian value of the
`lengthBlockSize` bits following the 4 mode bits. -/
def getLength (codewords : List (List ℕ)) (version : ℕ) (mode : EncodingMode) : ℕ :=
  binVal ((List.range (lengthBlockSize version mode)).map (fun i => bitAt codewords (4 + i)))

def alphanumericTable : String :=
  "0123456789ABCDEFGHIJKLMNOPQRSTUVWXYZ $%*+-./:"

/-- JavaScript string indexing plus concatenation treats an out-of-range
index as `undefined`, which renders as "undefined" when concatenated. -/
def jsCharStr : Option Char → String
  | some c => String.mk [c]
  | none => "undefined"

/-- The `decodedBlock` value for block `i` (src/qr.ts lines 800-819):
`undefined` (None) outside the declared length; Numeric groups are rendered
with plain `toString`, without zero padding. -/
def decodedBlock (mode : EncodingMode) (length i intVal : ℕ) : Option String :=
  match mode with
  | .Alphanumeric =>
    if 2 * i < length then
      some (if 2 * i + 1 = length then jsCharStr (alphanumericTable.toList.get? (intVal >>> 5))
        else jsCharStr (alphanumericTable.toList.get? (intVal / 45)) ++
          jsCharStr (alphanumericTable.toList.get? (intVal % 45)))
    else none
  | .Byte => if i < length then some (String.mk [Char.ofNat intVal]) else none
  | .Numeric =>
    if 3 * i < length then
      some (Nat.repr (if 3 * i + 1 = length then intVal >>> 6
        else if 3 * i + 2 = length then intVal >>> 3 else intVal))
    else none
  | .Unknown => none

/-- The decoded-message accumulation of `getDecodedData` (src/qr.ts lines
796-825): for each of the `maxNumBlocks = ⌊(L² - 225)/12⌋` blocks, read
`dataBlockSize` bits, decode the block, and append it when it is truthy
(neither `undefined` nor the empty string). -/
def getDecodedData (L version : ℕ) (codewords : List (List ℕ)) (mode : EncodingMode)
    (length : ℕ) : String :=
  (List.range ((L * L - 225) / 12)).foldl
    (fun acc i =>
      let bits := (List.range (dataBlockSize mode)).map
        (fun j => bitAt codewords (4 + lengthBlockSize version mode + dataBlockSize mode * i + j))
      let intVal := binVal bits
      match decodedBlock mode length i intVal with
      | some s => if s = "" then acc else acc ++ s
      | none => acc)
    ""

/-- Left-pad a decimal representation with zeros to the given width. -/
def zeroPad (w n : ℕ) : String :=
  String.mk (List.replicate (w - (Nat.repr n).length) '0') ++ Nat.repr n

/-- Modelled from the spec: a full Numeric group of 10 bits is rendered as a
"3-digit decimal value (zero-padded)". -/
def specNumericGroupRender (value : ℕ) : String :=
  zeroPad 3 value

/-- JavaScript read `code[r][c]` of the input grid (0 fallback; every read
the pipeline performs is in range for a validated grid). -/
def qrGet (code : List (List ℕ)) (r c : ℕ) : ℕ :=
  (code.getD r []).getD c 0

/-- `getOriginalFormatBits` (src/qr.ts lines 212-216): the grid bits at the
15 horizontal format coordinates. -/
def getOriginalFormatBits (code : List (List ℕ)) (fc : FormatCoordinates) : List ℕ :=
  fc.horizontal.map (fun p => qrGet code p.1 p.2)

/-- `getFormatBits` (src/qr.ts lines 239-308): the 15 bits of the selected
BCH option. -/
def getFormatBits (originalFormatBits : List ℕ) : List ℕ :=
  formatBitsOf (bestOptionIndex originalFormatBits)

/-- `getErrorCorrectionLevel` (src/qr.ts lines 310-321): the value of format
bits 0-1, indexing `[H, Q, M, L]`. -/
def getErrorCorrectionLevel (formatBits : List ℕ) : ℕ :=
  binVal (formatBits.take 2)

/-- The `maskIndex` of `getMaskGrid` (src/qr.ts line 380): the value of
format bits 2-4. -/
def getMaskIndex (formatBits : List ℕ) : ℕ :=
  binVal ((formatBits.drop 2).take 3)

/-- `maskGrid[r % 12][c % 12]` where `maskGrid` is the 12×12 sampling of the
selected mask predicate (src/qr.ts lines 378-381 and 462). -/
def maskBit (maskIndex r c : ℕ) : ℕ :=
  if maskFunctions maskIndex (r % 12) (c % 12) then 1 else 0

/-- A module of `maskedQRCode` (src/qr.ts line 462): the grid bit XOR the
mask bit. -/
def maskedQRCodeBit (code : List (List ℕ)) (maskIndex r c : ℕ) : ℕ :=
  qrGet code r c ^^^ maskBit maskIndex r c

/-- `interleavedCodewords` (src/qr.ts lines 523-525): codeword `i` is the 8
masked modules at data coordinates `8i .. 8i+7`. -/
def interleavedCodewords (code : List (List ℕ)) (maskIndex : ℕ)
    (dataCoordinates : List (ℤ × ℤ)) (numCodewords : ℕ) : List (List ℕ) :=
  (List.range numCodewords).map (fun i =>
    ((dataCoordinates.drop (8 * i)).take 8).map
      (fun p => maskedQRCodeBit code maskIndex p.1.toNat p.2.toNat))

/-- `getCodewords` (src/qr.ts lines 504-633), restricted to the codewords it
returns: reorder the interleaved codewords by the level's interleaving.
`getErrorCorrectionLevel` indexes `[H, Q, M, L]` while the codeword-count
table is in order `[L, M, Q, H]`, so level `ℓ` reads table entry `3 - ℓ`. -/
def getCodewords (version level : ℕ) (dataCoordinates : List (ℤ × ℤ))
    (code : List (List ℕ)) (maskIndex : ℕ) : List (List ℕ) :=
  let nums := (getNumCodewordsList version).getD (3 - level) []
  let interleaved := interleavedCodewords code maskIndex dataCoordinates nums.sum
  let interleaving := interleavingOf (maxNumCodewords version) nums
  (List.range nums.sum).map (fun i => interleaved.getD (interleaving.getD i 0) [])

/-- `toTable` (src/qr.ts lines 859-954), restricted to the decoding it
performs: the two validation asserts in source order, then the decode
pipeline down to the decoded message (the returned display table is not
modelled).  The asserts are the only ways the source function throws. -/
def toTable (originalQRCode : List (List ℕ)) : Except String String :=
  let L := originalQRCode.length
  if ¬(21 ≤ L ∧ L ≤ 177 ∧ L % 4 = 1) then Except.error "Invalid QR code size"
  else if originalQRCode.any (fun row => row.length != L) then
    Except.error "QR code must be a square"
  else
    let version := (L - 17) / 4
    let fc := getFormatCoordinates L
    let dataAreas := getDataAreas L version fc
    let originalFormatBits := getOriginalFormatBits originalQRCode fc
    let formatBits := getFormatBits originalFormatBits
    let level := getErrorCorrectionLevel formatBits
    let maskIndex := getMaskIndex formatBits
    let dataCoordinates := getDataCoordinates L dataAreas
    let codewords := getCodewords version level dataCoordinates originalQRCode maskIndex
    let mode := getEncodingMode codewords
    let len := getLength codewords version mode
    Except.ok (getDecodedData L version codewords mode len)

theorem popCount_agrees_below_1024 :
    ∀ n : ℕ, n < 1024 → popCount n = popCountRef n n := by decide

/-- C1: the format candidate search does not minimize Hamming weight. The
source (src/qr.ts line 261, src/unnamed/part_000 line 161) measures
`xorValue.toString(2).replace("0", "").length`, and JavaScript
`String.replace` with a string pattern removes only the FIRST `"0"`; the
code comment and the emitted spreadsheet formula (which uses `SUBSTITUTE`,
replacing every `"0"`) both describe the true Hamming distance.  With both
format copies reading 0b100001001010101 (codeword 0 with its top bit
flipped), the code selects candidate 16 while the Hamming-minimizing
selection described by the claim picks candidate 0. -/
theorem format_weight_bug_C1 :
    bestOptionIndexDual (formatBitsOf 16981) (formatBitsOf 16981) = 16 ∧
    specBestOptionIndexDual (formatBitsOf 16981) (formatBitsOf 16981) = 0 ∧
    16981 = BCH_encode 0 ^^^ 2 ^ 14 := by
  refine ⟨by decide, by decide, by decide⟩

/-- C3: a 2-bit corruption (one flip in each 15-bit copy, at bit 14) is within
the BCH correction radius, yet it changes the selected candidate: the clean
grid (both copies equal to codeword 0) selects candidate 0, while the
corrupted reading 0b100001001010101 in both copies selects candidate 16.
The cause is the same first-zero-only `replace` slip as in C1. -/
theorem format_radius_bug_C3 :
    bestOptionIndexDual (formatBitsOf (BCH_encode 0)) (formatBitsOf (BCH_encode 0)) = 0 ∧
    popCount (16981 ^^^ BCH_encode 0) + popCount (16981 ^^^ BCH_encode 0) = 2 ∧
    bestOptionIndexDual (formatBitsOf 16981) (formatBitsOf 16981) ≠ 0 := by
  refine ⟨by decide, by decide, by decide⟩

/-- C9: for every candidate v < 32, the top five bits of `BCH_encode v` are
exactly v, so the first two of the fifteen format bits read back v's high
bits (the error-correction level index) and the next three read back v's low
bits (the mask index). -/
theorem BCH_encode_top_bits_C9 : ∀ v : ℕ, v < 32 →
    BCH_encode v / 2 ^ 10 = v ∧
    binVal ((formatBitsOf (BCH_encode v)).take 2) = v / 8 ∧
    binVal (((formatBitsOf (BCH_encode v)).drop 2).take 3) = v % 8 := by
  decide

theorem BCH_encode_top_bits_C9_witness :
    BCH_encode 13 / 2 ^ 10 = 13 ∧
    binVal ((formatBitsOf (BCH_encode 13)).take 2) = 13 / 8 ∧
    binVal (((formatBitsOf (BCH_encode 13)).drop 2).take 3) = 13 % 8 :=
  BCH_encode_top_bits_C9 13 (by decide)

/-- C4 counterexample: mask predicate 1, `(⌊i/2⌋ + ⌊j/3⌋) % 2 = 0`, is not
periodic with period 6 in the row axis: it holds at (0,0) but not at (6,0). -/
theorem mask_period_six_fails_C4 :
    maskFunctions 1 6 0 ≠ maskFunctions 1 0 0 := by decide

/-- C4 (amended): every mask predicate is periodic with period dividing 12 in
each axis (so a 12×12 tile fully determines it; src/qr.ts indeed samples the
predicates on a 12×12 tile and indexes it modulo 12), and every predicate
except index 1 additionally has period dividing 6 in each axis. -/
theorem mask_periodicity_C4 : ∀ k : ℕ, k < 8 → ∀ i j : ℕ,
    (maskFunctions k (i + 12) j = maskFunctions k i j ∧
      maskFunctions k i (j + 12) = maskFunctions k i j) ∧
    (k ≠ 1 →
      maskFunctions k (i + 6) j = maskFunctions k i j ∧
        maskFunctions k i (j + 6) = maskFunctions k i j) := by
  intro k hk i j
  interval_cases k <;>
    refine ⟨⟨?_, ?_⟩, fun hne => ⟨?_, ?_⟩⟩ <;>
    simp only [maskFunctions, decide_eq_decide] <;>
    first
      | omega
      | (rw [Nat.add_mul]; omega)
      | (rw [Nat.mul_add]; omega)

theorem mask_periodicity_C4_witness :
    (maskFunctions 5 (3 + 12) 4 = maskFunctions 5 3 4 ∧
      maskFunctions 5 3 (4 + 12) = maskFunctions 5 3 4) ∧
    (5 ≠ 1 →
      maskFunctions 5 (3 + 6) 4 = maskFunctions 5 3 4 ∧
        maskFunctions 5 3 (4 + 6) = maskFunctions 5 3 4) :=
  mask_periodicity_C4 5 (by decide) 3 4

theorem dataCoordinatesCountAux_eq (L g : ℕ) :
    ∀ (fuel : ℕ) (r c dr : ℤ) (acc : List (ℤ × ℤ)),
      dataCoordinatesCountAux L g fuel r c dr acc.length =
        (getDataCoordinatesAux L g fuel r c dr acc).length := by
  intro fuel
  induction fuel with
  | zero =>
    intro r c dr acc
    simp [dataCoordinatesCountAux, getDataCoordinatesAux]
  | succ fuel ih =>
    intro r c dr acc
    simp only [dataCoordinatesCountAux, getDataCoordinatesAux]
    by_cases hc : c < 0
    · simp [hc]
    · cases h1 : jsGet g L r c <;> cases h2 : jsGet g L r (c - 1) <;>
        simp only [hc, h1, h2, if_false, if_true, Bool.false_eq_true, if_neg, ite_false,
          ite_true] <;>
        first
          | exact ih _ _ _ acc
          | simpa using ih _ _ _ ((r, c) :: acc)
          | simpa using ih _ _ _ ((r, c - 1) :: acc)
          | simpa using ih _ _ _ ((r, c - 1) :: (r, c) :: acc)

theorem getDataCoordinatesCount_eq (L g : ℕ) :
    getDataCoordinatesCount L g = (getDataCoordinates L g).length := by
  have := dataCoordinatesCountAux_eq L g ((L + 2) * (L + 2))
    ((L : ℤ) - 1) ((L : ℤ) - 1) (-1) []
  simpa [getDataCoordinatesCount, getDataCoordinates] using this

theorem jsGet_neg_col (g L : ℕ) (r c : ℤ) (hc : c < 0) : jsGet g L r c = false := by
  unfold jsGet
  rw [if_neg]
  omega

theorem bitN_neg_col (g L : ℕ) (r c : ℤ) (hc : c < 0) : bitN g L r c = 0 := by
  simp [bitN, jsGet_neg_col g L r c hc]

theorem colSumZ_neg (g L : ℕ) (c : ℤ) (hc : c < 0) : colSumZ g L c = 0 := by
  simp [colSumZ, bitN_neg_col g L _ c hc]

theorem countAux_stopped (L g : ℕ) :
    ∀ (fuel : ℕ) (r c dr : ℤ) (n : ℕ), c < 0 →
      dataCoordinatesCountAux L g fuel r c dr n = n := by
  intro fuel r c dr n hc
  cases fuel with
  | zero => rfl
  | succ fuel => simp [dataCoordinatesCountAux, hc]

theorem acc_eq (b1 b2 : Bool) (n : ℕ) :
    (if b2 then (if b1 then n + 1 else n) + 1 else (if b1 then n + 1 else n)) =
      n + (if b1 then 1 else 0) + (if b2 then 1 else 0) := by
  cases b1 <;> cases b2 <;> simp

theorem countAux_succ (L g : ℕ) (fuel : ℕ) (r c dr : ℤ) (n : ℕ) (hc : 0 ≤ c) :
    dataCoordinatesCountAux L g (fuel + 1) r c dr n =
      if r + dr = -1 then
        dataCoordinatesCountAux L g fuel 0 (if c - 2 = 6 then c - 3 else c - 2) 1
          (n + bitN g L r c + bitN g L r (c - 1))
      else if r + dr = (L : ℤ) then
        dataCoordinatesCountAux L g fuel ((L : ℤ) - 1) (if c - 2 = 6 then c - 3 else c - 2) (-1)
          (n + bitN g L r c + bitN g L r (c - 1))
      else
        dataCoordinatesCountAux L g fuel (r + dr) (if c = 6 then c - 1 else c) dr
          (n + bitN g L r c + bitN g L r (c - 1)) := by
  conv_lhs => rw [dataCoordinatesCountAux]
  rw [if_neg (by omega : ¬ c < 0)]
  simp only [bitN]
  rw [acc_eq]
  have h3 : c - 2 - 1 = c - 3 := by ring
  by_cases h1 : r + dr = -1
  · simp only [h1, if_true, reduceIte]
    rw [h3]
  · by_cases h2 : r + dr = (L : ℤ)
    · have hL : ¬ ((L : ℤ) = -1) := by omega
      simp only [h1, h2, hL, if_true, if_false, reduceIte]
      rw [h3]
    · simp [h1, h2]

theorem sweep_up (L g : ℕ) (c : ℤ) (hc : 0 ≤ c) (hc6 : c ≠ 6) :
    ∀ (j : ℕ), 1 ≤ j → j ≤ L → ∀ (fuel n : ℕ),
      dataCoordinatesCountAux L g (j + fuel) ((j : ℤ) - 1) c (-1) n =
        dataCoordinatesCountAux L g fuel 0 (if c - 2 = 6 then c - 3 else c - 2) 1
          (n + ∑ i in Finset.range j, (bitN g L (i : ℤ) c + bitN g L (i : ℤ) (c - 1))) := by
  intro j
  induction j with
  | zero => omega
  | succ j ih =>
    intro _ hjL fuel n
    have hr : ((j + 1 : ℕ) : ℤ) - 1 = (j : ℤ) := by push_cast; ring
    rw [show j + 1 + fuel = (j + fuel) + 1 from by omega,
        countAux_succ L g (j + fuel) _ c (-1) n hc, hr]
    by_cases hj : j = 0
    · subst hj
      rw [if_pos (by norm_num)]
      simp only [Nat.zero_add]
      congr 1
      rw [Finset.sum_range_one]
      ring
    · rw [if_neg (by omega), if_neg (by omega), if_neg hc6,
          show (j : ℤ) + -1 = (j : ℤ) - 1 from by ring,
          ih (by omega) (by omega)]
      congr 1
      rw [Finset.sum_range_succ]
      ring

theorem sweep_down (L g : ℕ) (c : ℤ) (hc : 0 ≤ c) (hc6 : c ≠ 6) :
    ∀ (j : ℕ), 1 ≤ j → j ≤ L → ∀ (fuel n : ℕ),
      dataCoordinatesCountAux L g (j + fuel) ((L : ℤ) - j) c 1 n =
        dataCoordinatesCountAux L g fuel ((L : ℤ) - 1)
          (if c - 2 = 6 then c - 3 else c - 2) (-1)
          (n + ∑ i in Finset.range j,
            (bitN g L ((L : ℤ) - 1 - i) c + bitN g L ((L : ℤ) - 1 - i) (c - 1))) := by
  intro j
  induction j with
  | zero => omega
  | succ j ih =>
    intro _ hjL fuel n
    have hr : ((L : ℤ) - ((j + 1 : ℕ) : ℤ)) = (L : ℤ) - 1 - (j : ℤ) := by push_cast; ring
    rw [show j + 1 + fuel = (j + fuel) + 1 from by omega,
        countAux_succ L g (j + fuel) _ c 1 n hc, hr]
    by_cases hj : j = 0
    · subst hj
      rw [if_neg (by omega), if_pos (by push_cast; ring)]
      simp only [Nat.zero_add]
      congr 1
      rw [Finset.sum_range_one]
      ring
    · rw [if_neg (by omega), if_neg (by omega), if_neg hc6,
          show ((L : ℤ) - 1 - (j : ℤ)) + 1 = (L : ℤ) - (j : ℤ) from by ring,
          ih (by omega) (by omega)]
      congr 1
      rw [Finset.sum_range_succ]
      ring

theorem col_up (L g : ℕ) (hL : 1 ≤ L) (c : ℤ) (hc : 0 ≤ c) (hc6 : c ≠ 6) (fuel n : ℕ) :
    dataCoordinatesCountAux L g (L + fuel) ((L : ℤ) - 1) c (-1) n =
      dataCoordinatesCountAux L g fuel 0 (if c - 2 = 6 then c - 3 else c - 2) 1
        (n + (colSumZ g L c + colSumZ g L (c - 1))) := by
  rw [sweep_up L g c hc hc6 L hL le_rfl fuel n]
  congr 1
  simp only [colSumZ]
  rw [← Finset.sum_add_distrib]

theorem col_down (L g : ℕ) (hL : 1 ≤ L) (c : ℤ) (hc : 0 ≤ c) (hc6 : c ≠ 6) (fuel n : ℕ) :
    dataCoordinatesCountAux L g (L + fuel) 0 c 1 n =
      dataCoordinatesCountAux L g fuel ((L : ℤ) - 1)
        (if c - 2 = 6 then c - 3 else c - 2) (-1)
        (n + (colSumZ g L c + colSumZ g L (c - 1))) := by
  have h := sweep_down L g c hc hc6 L hL le_rfl fuel n
  rw [show (L : ℤ) - (L : ℕ) = 0 from by simp] at h
  rw [h]
  congr 1
  have hsum : ∑ i in Finset.range L,
      (bitN g L ((L : ℤ) - 1 - i) c + bitN g L ((L : ℤ) - 1 - i) (c - 1)) =
      ∑ i in Finset.range L,
      (bitN g L ((L - 1 - i : ℕ) : ℤ) c + bitN g L ((L - 1 - i : ℕ) : ℤ) (c - 1)) := by
    refine Finset.sum_congr rfl fun i hi => ?_
    have hi' : i < L := Finset.mem_range.mp hi
    have hcast : ((L - 1 - i : ℕ) : ℤ) = (L : ℤ) - 1 - i := by omega
    rw [hcast]
  rw [hsum,
    Finset.sum_range_reflect (fun r => bitN g L (r : ℤ) c + bitN g L (r : ℤ) (c - 1)) L]
  simp only [colSumZ]
  rw [← Finset.sum_add_distrib]

theorem phases (L g : ℕ) (hL : 8 ≤ L) (hcol6 : colSumZ g L 6 = 0) :
    ∀ k : ℕ, (8 ≤ k → k % 2 = 0) → (k ≤ 7 → k % 2 = 1) → k ≤ L - 1 →
      ∀ (f n : ℕ) (r dir : ℤ),
        ((dir = -1 ∧ r = (L : ℤ) - 1) ∨ (dir = 1 ∧ r = 0)) →
        dataCoordinatesCountAux L g (L * (k + 1) + f) r (k : ℤ) dir n =
          n + ∑ x in Finset.range (k + 1), colSumZ g L (x : ℤ) := by
  intro k
  induction k using Nat.strong_induction_on with
  | _ k ih =>
  intro hk8 hk7 hkL f n r dir hdir
  have hc : (0 : ℤ) ≤ (k : ℤ) := by omega
  have hk6 : ((k : ℤ)) ≠ 6 := by omega
  have hcases : k = 1 ∨ k = 8 ∨ (k = 3 ∨ k = 5 ∨ k = 7 ∨ (10 ≤ k ∧ k % 2 = 0)) := by omega
  rcases hdir with ⟨rfl, rfl⟩ | ⟨rfl, rfl⟩
  · rw [show L * (k + 1) + f = L + (L * k + f) from by ring,
        col_up L g (by omega) (k : ℤ) hc hk6 (L * k + f) n]
    rcases hcases with rfl | rfl | hstep
    ·
      rw [if_neg (by norm_num),
          countAux_stopped L g _ _ _ _ _ (by omega : ((1 : ℕ) : ℤ) - 2 < 0),
          show ((1 : ℕ) : ℤ) - 1 = ((0 : ℕ) : ℤ) from by norm_num]
      conv_rhs => rw [Finset.sum_range_succ, Finset.sum_range_one]
      ring
    ·
      rw [if_pos (by norm_num),
          show ((8 : ℕ) : ℤ) - 3 = ((5 : ℕ) : ℤ) from by norm_num,
          show L * 8 + f = L * (5 + 1) + (L * 2 + f) from by ring,
          ih 5 (by omega) (by omega) (by omega) (by omega) (L * 2 + f) _ 0 1 (Or.inr ⟨rfl, rfl⟩),
          show ((8 : ℕ) : ℤ) - 1 = ((7 : ℕ) : ℤ) from by norm_num]
      rw [show (8 : ℕ) = 7 + 1 from rfl, show (7 : ℕ) = 6 + 1 from rfl,
          show (6 : ℕ) = 5 + 1 from rfl]
      conv_rhs => rw [Finset.sum_range_succ, Finset.sum_range_succ, Finset.sum_range_succ]
      rw [show ((5 + 1 : ℕ) : ℤ) = (6 : ℤ) from by norm_num, hcol6]
      ring
    ·
      obtain ⟨m, rfl⟩ : ∃ m, k = m + 2 := ⟨k - 2, by omega⟩
      rw [if_neg (by omega),
          show ((m + 2 : ℕ) : ℤ) - 2 = ((m : ℕ) : ℤ) from by push_cast; ring,
          show L * (m + 2) + f = L * (m + 1) + (L + f) from by ring,
          ih m (by omega) (by omega) (by omega) (by omega) (L + f) _ 0 1 (Or.inr ⟨rfl, rfl⟩),
          show ((m + 2 : ℕ) : ℤ) - 1 = ((m + 1 : ℕ) : ℤ) from by push_cast; ring,
          show m + 2 = m + 1 + 1 from rfl]
      conv_rhs => rw [Finset.sum_range_succ, Finset.sum_range_succ]
      ring
  · rw [show L * (k + 1) + f = L + (L * k + f) from by ring,
        col_down L g (by omega) (k : ℤ) hc hk6 (L * k + f) n]
    rcases hcases with rfl | rfl | hstep
    ·
      rw [if_neg (by norm_num),
          countAux_stopped L g _ _ _ _ _ (by omega : ((1 : ℕ) : ℤ) - 2 < 0),
          show ((1 : ℕ) : ℤ) - 1 = ((0 : ℕ) : ℤ) from by norm_num]
      conv_rhs => rw [Finset.sum_range_succ, Finset.sum_range_one]
      ring
    ·
      rw [if_pos (by norm_num),
          show ((8 : ℕ) : ℤ) - 3 = ((5 : ℕ) : ℤ) from by norm_num,
          show L * 8 + f = L * (5 + 1) + (L * 2 + f) from by ring,
          ih 5 (by omega) (by omega) (by omega) (by omega) (L * 2 + f) _ ((L : ℤ) - 1) (-1) (Or.inl ⟨rfl, rfl⟩),
          show ((8 : ℕ) : ℤ) - 1 = ((7 : ℕ) : ℤ) from by norm_num]
      rw [show (8 : ℕ) = 7 + 1 from rfl, show (7 : ℕ) = 6 + 1 from rfl,
          show (6 : ℕ) = 5 + 1 from rfl]
      conv_rhs => rw [Finset.sum_range_succ, Finset.sum_range_succ, Finset.sum_range_succ]
      rw [show ((5 + 1 : ℕ) : ℤ) = (6 : ℤ) from by norm_num, hcol6]
      ring
    ·
      obtain ⟨m, rfl⟩ : ∃ m, k = m + 2 := ⟨k - 2, by omega⟩
      rw [if_neg (by omega),
          show ((m + 2 : ℕ) : ℤ) - 2 = ((m : ℕ) : ℤ) from by push_cast; ring,
          show L * (m + 2) + f = L * (m + 1) + (L + f) from by ring,
          ih m (by omega) (by omega) (by omega) (by omega) (L + f) _ ((L : ℤ) - 1) (-1) (Or.inl ⟨rfl, rfl⟩),
          show ((m + 2 : ℕ) : ℤ) - 1 = ((m + 1 : ℕ) : ℤ) from by push_cast; ring,
          show m + 2 = m + 1 + 1 from rfl]
      conv_rhs => rw [Finset.sum_range_succ, Finset.sum_range_succ]
      ring

theorem div_pow_mod_two (m i : ℕ) :
    m / 2 ^ i % 2 = if Nat.testBit m i then 1 else 0 := by
  rw [Nat.testBit_to_div_mod]
  rcases Nat.mod_two_eq_zero_or_one (m / 2 ^ i) with h | h <;> simp [h]

theorem sum_range_split (f : ℕ → ℕ) (a b : ℕ) :
    ∑ j in Finset.range (a + b), f j =
      (∑ j in Finset.range a, f j) + ∑ j in Finset.range b, f (a + j) := by
  conv_lhs => rw [Finset.range_eq_Ico,
      ← Finset.sum_Ico_consecutive f (Nat.zero_le a) (Nat.le_add_right a b)]
  rw [← Finset.range_eq_Ico, Finset.sum_Ico_eq_sum_range,
      show a + b - a = b from by omega]

theorem rowSplit (f : ℕ → ℕ) (R C : ℕ) :
    ∑ j in Finset.range (R * C), f j =
      ∑ r in Finset.range R, ∑ c in Finset.range C, f (r * C + c) := by
  induction R with
  | zero => simp
  | succ R ih =>
    rw [show (R + 1) * C = R * C + C from by ring, sum_range_split, ih,
        Finset.sum_range_succ]

theorem popCount16_spec (m : ℕ) :
    popCount16 m = ∑ i in Finset.range 16, (if Nat.testBit m i then 1 else 0) := by
  rw [Finset.sum_congr rfl fun i _ => (div_pow_mod_two m i).symm]
  simp only [popCount16, Finset.sum_range_succ, Finset.sum_range_zero]
  norm_num

theorem popCount64_spec (m : ℕ) :
    popCount64 m = ∑ i in Finset.range 64, (if Nat.testBit m i then 1 else 0) := by
  have hchunk : ∀ k i : ℕ, i < 16 →
      Nat.testBit (m / 2 ^ k % 65536) i = Nat.testBit m (k + i) := by
    intro k i hi
    rw [show (65536 : ℕ) = 2 ^ 16 from by norm_num, Nat.testBit_mod_two_pow,
        ← Nat.shiftRight_eq_div_pow, Nat.testBit_shiftRight]
    simp [hi]
  have hsum : ∀ k : ℕ,
      (∑ i in Finset.range 16, (if Nat.testBit (m / 2 ^ k % 65536) i then 1 else 0)) =
        ∑ i in Finset.range 16, (if Nat.testBit m (k + i) then 1 else 0) :=
    fun k => Finset.sum_congr rfl fun i hi => by
      rw [hchunk k i (Finset.mem_range.mp hi)]
  simp only [popCount64, popCount16_spec]
  rw [show m % 65536 = m / 2 ^ 0 % 65536 from by norm_num,
      show m / 65536 = m / 2 ^ 16 from by norm_num,
      show m / 4294967296 = m / 2 ^ 32 from by norm_num,
      show m / 281474976710656 = m / 2 ^ 48 from by norm_num,
      hsum 0, hsum 16, hsum 32, hsum 48,
      rowSplit (fun j => if Nat.testBit m j then 1 else 0) 4 16]
  simp only [Finset.sum_range_succ, Finset.sum_range_zero]
  norm_num

theorem popCountAux_spec :
    ∀ fuel n acc : ℕ, n < 2 ^ (64 * fuel) →
      popCountAux fuel n acc =
        acc + ∑ i in Finset.range (64 * fuel), (if Nat.testBit n i then 1 else 0) := by
  intro fuel
  induction fuel with
  | zero => intro n acc h; simp [popCountAux]
  | succ fuel ih =>
    intro n acc h
    by_cases hn : n = 0
    · subst hn
      simp [popCountAux, Nat.zero_testBit]
    · have hb : n / 18446744073709551616 < 2 ^ (64 * fuel) := by
        rw [show (18446744073709551616 : ℕ) = 2 ^ 64 from by norm_num,
            Nat.div_lt_iff_lt_mul (by positivity), ← pow_add]
        exact lt_of_lt_of_le h (le_of_eq (by rw [show 64 * (fuel + 1) = 64 * fuel + 64 from by ring]))
      have hsh : ∀ i : ℕ, Nat.testBit (n / 18446744073709551616) i = Nat.testBit n (64 + i) := by
        intro i
        rw [show (18446744073709551616 : ℕ) = 2 ^ 64 from by norm_num,
            ← Nat.shiftRight_eq_div_pow, Nat.testBit_shiftRight]
      simp only [popCountAux, if_neg hn]
      rw [ih _ _ hb,
          Finset.sum_congr rfl fun i _ => by rw [hsh i],
          show 64 * (fuel + 1) = 64 + 64 * fuel from by ring,
          sum_range_split (fun i => if Nat.testBit n i then 1 else 0) 64 (64 * fuel),
          popCount64_spec]
      ring

theorem testBit_sum_ext (n : ℕ) :
    ∀ a b : ℕ, a ≤ b → n < 2 ^ a →
      (∑ i in Finset.range a, (if Nat.testBit n i then 1 else 0)) =
        ∑ i in Finset.range b, (if Nat.testBit n i then 1 else 0) := by
  intro a b hab ha
  refine Finset.sum_subset (Finset.range_subset.mpr hab) ?_
  intro i hi hia
  have hia' : a ≤ i := by
    have := Finset.mem_range.mp hi
    by_contra hcon
    exact hia (Finset.mem_range.mpr (by omega))
  have : n < 2 ^ i := lt_of_lt_of_le ha (Nat.pow_le_pow_right (by norm_num) hia')
  simp [Nat.testBit_lt_two_pow this]

theorem popCount_spec (k n : ℕ) (h : n < 2 ^ k) :
    popCount n = ∑ i in Finset.range k, (if Nat.testBit n i then 1 else 0) := by
  have h1 : n < 2 ^ (64 * n) :=
    lt_of_lt_of_le (Nat.lt_two_pow n)
      (Nat.pow_le_pow_right (by norm_num) (by omega))
  rw [popCount, popCountAux_spec n n 0 h1, Nat.zero_add]
  rcases le_total (64 * n) k with hle | hle
  · exact testBit_sum_ext n (64 * n) k hle h1
  · exact (testBit_sum_ext n k (64 * n) hle h).symm

theorem bitN_natCast (g L r c : ℕ) :
    bitN g L (r : ℤ) (c : ℤ) = if Nat.testBit g (r * L + c) then 1 else 0 := by
  simp [bitN, jsGet, gridGet]

theorem colSumZ_six_eq_zero (g L : ℕ)
    (h : ∀ r < L, Nat.testBit g (r * L + 6) = false) : colSumZ g L 6 = 0 := by
  refine Finset.sum_eq_zero fun r hr => ?_
  rw [show (6 : ℤ) = ((6 : ℕ) : ℤ) from by norm_num, bitN_natCast]
  simp [h r (Finset.mem_range.mp hr)]

theorem countAux_total (L g : ℕ) (hL : 21 ≤ L) (hodd : L % 2 = 1)
    (hcol6 : colSumZ g L 6 = 0) :
    getDataCoordinatesCount L g = ∑ x in Finset.range L, colSumZ g L (x : ℤ) := by
  obtain ⟨k, rfl⟩ : ∃ k, L = k + 1 := ⟨L - 1, by omega⟩
  simp only [getDataCoordinatesCount]
  rw [show ((k + 1 : ℕ) : ℤ) - 1 = ((k : ℕ) : ℤ) from by push_cast; ring,
      show (k + 1 + 2) * (k + 1 + 2) = (k + 1) * (k + 1) + (4 * k + 8) from by ring,
      phases (k + 1) g (by omega) hcol6 k (by omega) (by omega) (by omega)
        (4 * k + 8) 0 ((k : ℕ) : ℤ) (-1) (Or.inl ⟨rfl, by push_cast; ring⟩)]
  omega

theorem getDataCoordinatesCount_spec (L g : ℕ) (hL : 21 ≤ L) (hodd : L % 2 = 1)
    (hg : g < 2 ^ (L * L)) (hcol6 : ∀ r < L, Nat.testBit g (r * L + 6) = false) :
    getDataCoordinatesCount L g = popCount g := by
  rw [countAux_total L g hL hodd (colSumZ_six_eq_zero g L hcol6),
      popCount_spec (L * L) g hg,
      rowSplit (fun j => if Nat.testBit g j then 1 else 0) L L]
  simp only [colSumZ]
  rw [Finset.sum_comm]
  exact Finset.sum_congr rfl fun r _ => Finset.sum_congr rfl fun c _ => by
    rw [bitN_natCast]

/-- C2 counterexample: at version 2 the data-area map has 359 true entries —
not even a multiple of 8, so it cannot equal 8 × totalCodewords(2) (which is
8 · 44 = 352); the 7 surplus modules are the version's remainder bits. -/
theorem dataArea_count_not_8x_C2 :
    countTrue (getDataAreas 25 2 (getFormatCoordinates 25)) = 359 ∧
    359 % 8 = 7 ∧ 8 * totalCodewords.getD 2 0 = 352 := by
  refine ⟨by rfl, by rfl, by rfl⟩

set_option maxHeartbeats 100000000 in
/-- Per-version evaluation facts for C2, one declaration per version so each
kernel check stays small: the data-area true-entry count, the bound
`dataAreas < 2^(L*L)`, and the emptiness of timing column 6. -/
theorem dataAreaFacts_v1 :
    countTrue (getDataAreas (4 * 1 + 17) 1 (getFormatCoordinates (4 * 1 + 17))) =
      8 * totalCodewords.getD 1 0 + remainderBits.getD 1 0 ∧
    getDataAreas (4 * 1 + 17) 1 (getFormatCoordinates (4 * 1 + 17)) <
      2 ^ ((4 * 1 + 17) * (4 * 1 + 17)) ∧
    ∀ r < 4 * 1 + 17,
      Nat.testBit (getDataAreas (4 * 1 + 17) 1 (getFormatCoordinates (4 * 1 + 17)))
        (r * (4 * 1 + 17) + 6) = false :=
  ⟨by decide, by decide, by decide⟩

set_option maxHeartbeats 100000000 in
theorem dataAreaFacts_v2 :
    countTrue (getDataAreas (4 * 2 + 17) 2 (getFormatCoordinates (4 * 2 + 17))) =
      8 * totalCodewords.getD 2 0 + remainderBits.getD 2 0 ∧
    getDataAreas (4 * 2 + 17) 2 (getFormatCoordinates (4 * 2 + 17)) <
      2 ^ ((4 * 2 + 17) * (4 * 2 + 17)) ∧
    ∀ r < 4 * 2 + 17,
      Nat.testBit (getDataAreas (4 * 2 + 17) 2 (getFormatCoordinates (4 * 2 + 17)))
        (r * (4 * 2 + 17) + 6) = false :=
  ⟨by decide, by decide, by decide⟩

set_option maxHeartbeats 100000000 in
theorem dataAreaFacts_v3 :
    countTrue (getDataAreas (4 * 3 + 17) 3 (getFormatCoordinates (4 * 3 + 17))) =
      8 * totalCodewords.getD 3 0 + remainderBits.getD 3 0 ∧
    getDataAreas (4 * 3 + 17) 3 (getFormatCoordinates (4 * 3 + 17)) <
      2 ^ ((4 * 3 + 17) * (4 * 3 + 17)) ∧
    ∀ r < 4 * 3 + 17,
      Nat.testBit (getDataAreas (4 * 3 + 17) 3 (getFormatCoordinates (4 * 3 + 17)))
        (r * (4 * 3 + 17) + 6) = false :=
  ⟨by decide, by decide, by decide⟩

set_option maxHeartbeats 100000000 in
theorem dataAreaFacts_v4 :
    countTrue (getDataAreas (4 * 4 + 17) 4 (getFormatCoordinates (4 * 4 + 17))) =
      8 * totalCodewords.getD 4 0 + remainderBits.getD 4 0 ∧
    getDataAreas (4 * 4 + 17) 4 (getFormatCoordinates (4 * 4 + 17)) <
      2 ^ ((4 * 4 + 17) * (4 * 4 + 17)) ∧
    ∀ r < 4 * 4 + 17,
      Nat.testBit (getDataAreas (4 * 4 + 17) 4 (getFormatCoordinates (4 * 4 + 17)))
        (r * (4 * 4 + 17) + 6) = false :=
  ⟨by decide, by decide, by decide⟩

set_option maxHeartbeats 100000000 in
theorem dataAreaFacts_v5 :
    countTrue (getDataAreas (4 * 5 + 17) 5 (getFormatCoordinates (4 * 5 + 17))) =
      8 * totalCodewords.getD 5 0 + remainderBits.getD 5 0 ∧
    getDataAreas (4 * 5 + 17) 5 (getFormatCoordinates (4 * 5 + 17)) <
      2 ^ ((4 * 5 + 17) * (4 * 5 + 17)) ∧
    ∀ r < 4 * 5 + 17,
      Nat.testBit (getDataAreas (4 * 5 + 17) 5 (getFormatCoordinates (4 * 5 + 17)))
        (r * (4 * 5 + 17) + 6) = false :=
  ⟨by decide, by decide, by decide⟩

set_option maxHeartbeats 100000000 in
theorem dataAreaFacts_v6 :
    countTrue (getDataAreas (4 * 6 + 17) 6 (getFormatCoordinates (4 * 6 + 17))) =
      8 * totalCodewords.getD 6 0 + remainderBits.getD 6 0 ∧
    getDataAreas (4 * 6 + 17) 6 (getFormatCoordinates (4 * 6 + 17)) <
      2 ^ ((4 * 6 + 17) * (4 * 6 + 17)) ∧
    ∀ r < 4 * 6 + 17,
      Nat.testBit (getDataAreas (4 * 6 + 17) 6 (getFormatCoordinates (4 * 6 + 17)))
        (r * (4 * 6 + 17) + 6) = false :=
  ⟨by decide, by decide, by decide⟩

set_option maxHeartbeats 100000000 in
theorem dataAreaFacts_v7 :
    countTrue (getDataAreas (4 * 7 + 17) 7 (getFormatCoordinates (4 * 7 + 17))) =
      8 * totalCodewords.getD 7 0 + remainderBits.getD 7 0 ∧
    getDataAreas (4 * 7 + 17) 7 (getFormatCoordinates (4 * 7 + 17)) <
      2 ^ ((4 * 7 + 17) * (4 * 7 + 17)) ∧
    ∀ r < 4 * 7 + 17,
      Nat.testBit (getDataAreas (4 * 7 + 17) 7 (getFormatCoordinates (4 * 7 + 17)))
        (r * (4 * 7 + 17) + 6) = false :=
  ⟨by decide, by decide, by decide⟩

set_option maxHeartbeats 100000000 in
theorem dataAreaFacts_v8 :
    countTrue (getDataAreas (4 * 8 + 17) 8 (getFormatCoordinates (4 * 8 + 17))) =
      8 * totalCodewords.getD 8 0 + remainderBits.getD 8 0 ∧
    getDataAreas (4 * 8 + 17) 8 (getFormatCoordinates (4 * 8 + 17)) <
      2 ^ ((4 * 8 + 17) * (4 * 8 + 17)) ∧
    ∀ r < 4 * 8 + 17,
      Nat.testBit (getDataAreas (4 * 8 + 17) 8 (getFormatCoordinates (4 * 8 + 17)))
        (r * (4 * 8 + 17) + 6) = false :=
  ⟨by decide, by decide, by decide⟩

set_option maxHeartbeats 100000000 in
theorem dataAreaFacts_v9 :
    countTrue (getDataAreas (4 * 9 + 17) 9 (getFormatCoordinates (4 * 9 + 17))) =
      8 * totalCodewords.getD 9 0 + remainderBits.getD 9 0 ∧
    getDataAreas (4 * 9 + 17) 9 (getFormatCoordinates (4 * 9 + 17)) <
      2 ^ ((4 * 9 + 17) * (4 * 9 + 17)) ∧
    ∀ r < 4 * 9 + 17,
      Nat.testBit (getDataAreas (4 * 9 + 17) 9 (getFormatCoordinates (4 * 9 + 17)))
        (r * (4 * 9 + 17) + 6) = false :=
  ⟨by decide, by decide, by decide⟩

set_option maxHeartbeats 100000000 in
theorem dataAreaFacts_v10 :
    countTrue (getDataAreas (4 * 10 + 17) 10 (getFormatCoordinates (4 * 10 + 17))) =
      8 * totalCodewords.getD 10 0 + remainderBits.getD 10 0 ∧
    getDataAreas (4 * 10 + 17) 10 (getFormatCoordinates (4 * 10 + 17)) <
      2 ^ ((4 * 10 + 17) * (4 * 10 + 17)) ∧
    ∀ r < 4 * 10 + 17,
      Nat.testBit (getDataAreas (4 * 10 + 17) 10 (getFormatCoordinates (4 * 10 + 17)))
        (r * (4 * 10 + 17) + 6) = false :=
  ⟨by decide, by decide, by decide⟩

set_option maxHeartbeats 100000000 in
theorem dataAreaFacts_v11 :
    countTrue (getDataAreas (4 * 11 + 17) 11 (getFormatCoordinates (4 * 11 + 17))) =
      8 * totalCodewords.getD 11 0 + remainderBits.getD 11 0 ∧
    getDataAreas (4 * 11 + 17) 11 (getFormatCoordinates (4 * 11 + 17)) <
      2 ^ ((4 * 11 + 17) * (4 * 11 + 17)) ∧
    ∀ r < 4 * 11 + 17,
      Nat.testBit (getDataAreas (4 * 11 + 17) 11 (getFormatCoordinates (4 * 11 + 17)))
        (r * (4 * 11 + 17) + 6) = false :=
  ⟨by decide, by decide, by decide⟩

set_option maxHeartbeats 100000000 in
theorem dataAreaFacts_v12 :
    countTrue (getDataAreas (4 * 12 + 17) 12 (getFormatCoordinates (4 * 12 + 17))) =
      8 * totalCodewords.getD 12 0 + remainderBits.getD 12 0 ∧
    getDataAreas (4 * 12 + 17) 12 (getFormatCoordinates (4 * 12 + 17)) <
      2 ^ ((4 * 12 + 17) * (4 * 12 + 17)) ∧
    ∀ r < 4 * 12 + 17,
      Nat.testBit (getDataAreas (4 * 12 + 17) 12 (getFormatCoordinates (4 * 12 + 17)))
        (r * (4 * 12 + 17) + 6) = false :=
  ⟨by decide, by decide, by decide⟩

set_option maxHeartbeats 100000000 in
theorem dataAreaFacts_v13 :
    countTrue (getDataAreas (4 * 13 + 17) 13 (getFormatCoordinates (4 * 13 + 17))) =
      8 * totalCodewords.getD 13 0 + remainderBits.getD 13 0 ∧
    getDataAreas (4 * 13 + 17) 13 (getFormatCoordinates (4 * 13 + 17)) <
      2 ^ ((4 * 13 + 17) * (4 * 13 + 17)) ∧
    ∀ r < 4 * 13 + 17,
      Nat.testBit (getDataAreas (4 * 13 + 17) 13 (getFormatCoordinates (4 * 13 + 17)))
        (r * (4 * 13 + 17) + 6) = false :=
  ⟨by decide, by decide, by decide⟩

set_option maxHeartbeats 100000000 in
theorem dataAreaFacts_v14 :
    countTrue (getDataAreas (4 * 14 + 17) 14 (getFormatCoordinates (4 * 14 + 17))) =
      8 * totalCodewords.getD 14 0 + remainderBits.getD 14 0 ∧
    getDataAreas (4 * 14 + 17) 14 (getFormatCoordinates (4 * 14 + 17)) <
      2 ^ ((4 * 14 + 17) * (4 * 14 + 17)) ∧
    ∀ r < 4 * 14 + 17,
      Nat.testBit (getDataAreas (4 * 14 + 17) 14 (getFormatCoordinates (4 * 14 + 17)))
        (r * (4 * 14 + 17) + 6) = false :=
  ⟨by decide, by decide, by decide⟩

set_option maxHeartbeats 100000000 in
theorem dataAreaFacts_v15 :
    countTrue (getDataAreas (4 * 15 + 17) 15 (getFormatCoordinates (4 * 15 + 17))) =
      8 * totalCodewords.getD 15 0 + remainderBits.getD 15 0 ∧
    getDataAreas (4 * 15 + 17) 15 (getFormatCoordinates (4 * 15 + 17)) <
      2 ^ ((4 * 15 + 17) * (4 * 15 + 17)) ∧
    ∀ r < 4 * 15 + 17,
      Nat.testBit (getDataAreas (4 * 15 + 17) 15 (getFormatCoordinates (4 * 15 + 17)))
        (r * (4 * 15 + 17) + 6) = false :=
  ⟨by decide, by decide, by decide⟩

set_option maxHeartbeats 100000000 in
theorem dataAreaFacts_v16 :
    countTrue (getDataAreas (4 * 16 + 17) 16 (getFormatCoordinates (4 * 16 + 17))) =
      8 * totalCodewords.getD 16 0 + remainderBits.getD 16 0 ∧
    getDataAreas (4 * 16 + 17) 16 (getFormatCoordinates (4 * 16 + 17)) <
      2 ^ ((4 * 16 + 17) * (4 * 16 + 17)) ∧
    ∀ r < 4 * 16 + 17,
      Nat.testBit (getDataAreas (4 * 16 + 17) 16 (getFormatCoordinates (4 * 16 + 17)))
        (r * (4 * 16 + 17) + 6) = false :=
  ⟨by decide, by decide, by decide⟩

set_option maxHeartbeats 100000000 in
theorem dataAreaFacts_v17 :
    countTrue (getDataAreas (4 * 17 + 17) 17 (getFormatCoordinates (4 * 17 + 17))) =
      8 * totalCodewords.getD 17 0 + remainderBits.getD 17 0 ∧
    getDataAreas (4 * 17 + 17) 17 (getFormatCoordinates (4 * 17 + 17)) <
      2 ^ ((4 * 17 + 17) * (4 * 17 + 17)) ∧
    ∀ r < 4 * 17 + 17,
      Nat.testBit (getDataAreas (4 * 17 + 17) 17 (getFormatCoordinates (4 * 17 + 17)))
        (r * (4 * 17 + 17) + 6) = false :=
  ⟨by decide, by decide, by decide⟩

set_option maxHeartbeats 100000000 in
theorem dataAreaFacts_v18 :
    countTrue (getDataAreas (4 * 18 + 17) 18 (getFormatCoordinates (4 * 18 + 17))) =
      8 * totalCodewords.getD 18 0 + remainderBits.getD 18 0 ∧
    getDataAreas (4 * 18 + 17) 18 (getFormatCoordinates (4 * 18 + 17)) <
      2 ^ ((4 * 18 + 17) * (4 * 18 + 17)) ∧
    ∀ r < 4 * 18 + 17,
      Nat.testBit (getDataAreas (4 * 18 + 17) 18 (getFormatCoordinates (4 * 18 + 17)))
        (r * (4 * 18 + 17) + 6) = false :=
  ⟨by decide, by decide, by decide⟩

set_option maxHeartbeats 100000000 in
theorem dataAreaFacts_v19 :
    countTrue (getDataAreas (4 * 19 + 17) 19 (getFormatCoordinates (4 * 19 + 17))) =
      8 * totalCodewords.getD 19 0 + remainderBits.getD 19 0 ∧
    getDataAreas (4 * 19 + 17) 19 (getFormatCoordinates (4 * 19 + 17)) <
      2 ^ ((4 * 19 + 17) * (4 * 19 + 17)) ∧
    ∀ r < 4 * 19 + 17,
      Nat.testBit (getDataAreas (4 * 19 + 17) 19 (getFormatCoordinates (4 * 19 + 17)))
        (r * (4 * 19 + 17) + 6) = false :=
  ⟨by decide, by decide, by decide⟩

set_option maxHeartbeats 100000000 in
theorem dataAreaFacts_v20 :
    countTrue (getDataAreas (4 * 20 + 17) 20 (getFormatCoordinates (4 * 20 + 17))) =
      8 * totalCodewords.getD 20 0 + remainderBits.getD 20 0 ∧
    getDataAreas (4 * 20 + 17) 20 (getFormatCoordinates (4 * 20 + 17)) <
      2 ^ ((4 * 20 + 17) * (4 * 20 + 17)) ∧
    ∀ r < 4 * 20 + 17,
      Nat.testBit (getDataAreas (4 * 20 + 17) 20 (getFormatCoordinates (4 * 20 + 17)))
        (r * (4 * 20 + 17) + 6) = false :=
  ⟨by decide, by decide, by decide⟩

set_option maxHeartbeats 100000000 in
theorem dataAreaFacts_v21 :
    countTrue (getDataAreas (4 * 21 + 17) 21 (getFormatCoordinates (4 * 21 + 17))) =
      8 * totalCodewords.getD 21 0 + remainderBits.getD 21 0 ∧
    getDataAreas (4 * 21 + 17) 21 (getFormatCoordinates (4 * 21 + 17)) <
      2 ^ ((4 * 21 + 17) * (4 * 21 + 17)) ∧
    ∀ r < 4 * 21 + 17,
      Nat.testBit (getDataAreas (4 * 21 + 17) 21 (getFormatCoordinates (4 * 21 + 17)))
        (r * (4 * 21 + 17) + 6) = false :=
  ⟨by decide, by decide, by decide⟩

set_option maxHeartbeats 100000000 in
theorem dataAreaFacts_v22 :
    countTrue (getDataAreas (4 * 22 + 17) 22 (getFormatCoordinates (4 * 22 + 17))) =
      8 * totalCodewords.getD 22 0 + remainderBits.getD 22 0 ∧
    getDataAreas (4 * 22 + 17) 22 (getFormatCoordinates (4 * 22 + 17)) <
      2 ^ ((4 * 22 + 17) * (4 * 22 + 17)) ∧
    ∀ r < 4 * 22 + 17,
      Nat.testBit (getDataAreas (4 * 22 + 17) 22 (getFormatCoordinates (4 * 22 + 17)))
        (r * (4 * 22 + 17) + 6) = false :=
  ⟨by decide, by decide, by decide⟩

set_option maxHeartbeats 100000000 in
theorem dataAreaFacts_v23 :
    countTrue (getDataAreas (4 * 23 + 17) 23 (getFormatCoordinates (4 * 23 + 17))) =
      8 * totalCodewords.getD 23 0 + remainderBits.getD 23 0 ∧
    getDataAreas (4 * 23 + 17) 23 (getFormatCoordinates (4 * 23 + 17)) <
      2 ^ ((4 * 23 + 17) * (4 * 23 + 17)) ∧
    ∀ r < 4 * 23 + 17,
      Nat.testBit (getDataAreas (4 * 23 + 17) 23 (getFormatCoordinates (4 * 23 + 17)))
        (r * (4 * 23 + 17) + 6) = false :=
  ⟨by decide, by decide, by decide⟩

set_option maxHeartbeats 100000000 in
theorem dataAreaFacts_v24 :
    countTrue (getDataAreas (4 * 24 + 17) 24 (getFormatCoordinates (4 * 24 + 17))) =
      8 * totalCodewords.getD 24 0 + remainderBits.getD 24 0 ∧
    getDataAreas (4 * 24 + 17) 24 (getFormatCoordinates (4 * 24 + 17)) <
      2 ^ ((4 * 24 + 17) * (4 * 24 + 17)) ∧
    ∀ r < 4 * 24 + 17,
      Nat.testBit (getDataAreas (4 * 24 + 17) 24 (getFormatCoordinates (4 * 24 + 17)))
        (r * (4 * 24 + 17) + 6) = false :=
  ⟨by decide, by decide, by decide⟩

set_option maxHeartbeats 100000000 in
theorem dataAreaFacts_v25 :
    countTrue (getDataAreas (4 * 25 + 17) 25 (getFormatCoordinates (4 * 25 + 17))) =
      8 * totalCodewords.getD 25 0 + remainderBits.getD 25 0 ∧
    getDataAreas (4 * 25 + 17) 25 (getFormatCoordinates (4 * 25 + 17)) <
      2 ^ ((4 * 25 + 17) * (4 * 25 + 17)) ∧
    ∀ r < 4 * 25 + 17,
      Nat.testBit (getDataAreas (4 * 25 + 17) 25 (getFormatCoordinates (4 * 25 + 17)))
        (r * (4 * 25 + 17) + 6) = false :=
  ⟨by decide, by decide, by decide⟩

set_option maxHeartbeats 100000000 in
theorem dataAreaFacts_v26 :
    countTrue (getDataAreas (4 * 26 + 17) 26 (getFormatCoordinates (4 * 26 + 17))) =
      8 * totalCodewords.getD 26 0 + remainderBits.getD 26 0 ∧
    getDataAreas (4 * 26 + 17) 26 (getFormatCoordinates (4 * 26 + 17)) <
      2 ^ ((4 * 26 + 17) * (4 * 26 + 17)) ∧
    ∀ r < 4 * 26 + 17,
      Nat.testBit (getDataAreas (4 * 26 + 17) 26 (getFormatCoordinates (4 * 26 + 17)))
        (r * (4 * 26 + 17) + 6) = false :=
  ⟨by decide, by decide, by decide⟩

set_option maxHeartbeats 100000000 in
theorem dataAreaFacts_v27 :
    countTrue (getDataAreas (4 * 27 + 17) 27 (getFormatCoordinates (4 * 27 + 17))) =
      8 * totalCodewords.getD 27 0 + remainderBits.getD 27 0 ∧
    getDataAreas (4 * 27 + 17) 27 (getFormatCoordinates (4 * 27 + 17)) <
      2 ^ ((4 * 27 + 17) * (4 * 27 + 17)) ∧
    ∀ r < 4 * 27 + 17,
      Nat.testBit (getDataAreas (4 * 27 + 17) 27 (getFormatCoordinates (4 * 27 + 17)))
        (r * (4 * 27 + 17) + 6) = false :=
  ⟨by decide, by decide, by decide⟩

set_option maxHeartbeats 100000000 in
theorem dataAreaFacts_v28 :
    countTrue (getDataAreas (4 * 28 + 17) 28 (getFormatCoordinates (4 * 28 + 17))) =
      8 * totalCodewords.getD 28 0 + remainderBits.getD 28 0 ∧
    getDataAreas (4 * 28 + 17) 28 (getFormatCoordinates (4 * 28 + 17)) <
      2 ^ ((4 * 28 + 17) * (4 * 28 + 17)) ∧
    ∀ r < 4 * 28 + 17,
      Nat.testBit (getDataAreas (4 * 28 + 17) 28 (getFormatCoordinates (4 * 28 + 17)))
        (r * (4 * 28 + 17) + 6) = false :=
  ⟨by decide, by decide, by decide⟩

set_option maxHeartbeats 100000000 in
theorem dataAreaFacts_v29 :
    countTrue (getDataAreas (4 * 29 + 17) 29 (getFormatCoordinates (4 * 29 + 17))) =
      8 * totalCodewords.getD 29 0 + remainderBits.getD 29 0 ∧
    getDataAreas (4 * 29 + 17) 29 (getFormatCoordinates (4 * 29 + 17)) <
      2 ^ ((4 * 29 + 17) * (4 * 29 + 17)) ∧
    ∀ r < 4 * 29 + 17,
      Nat.testBit (getDataAreas (4 * 29 + 17) 29 (getFormatCoordinates (4 * 29 + 17)))
        (r * (4 * 29 + 17) + 6) = false :=
  ⟨by decide, by decide, by decide⟩

set_option maxHeartbeats 100000000 in
theorem dataAreaFacts_v30 :
    countTrue (getDataAreas (4 * 30 + 17) 30 (getFormatCoordinates (4 * 30 + 17))) =
      8 * totalCodewords.getD 30 0 + remainderBits.getD 30 0 ∧
    getDataAreas (4 * 30 + 17) 30 (getFormatCoordinates (4 * 30 + 17)) <
      2 ^ ((4 * 30 + 17) * (4 * 30 + 17)) ∧
    ∀ r < 4 * 30 + 17,
      Nat.testBit (getDataAreas (4 * 30 + 17) 30 (getFormatCoordinates (4 * 30 + 17)))
        (r * (4 * 30 + 17) + 6) = false :=
  ⟨by decide, by decide, by decide⟩

set_option maxHeartbeats 100000000 in
theorem dataAreaFacts_v31 :
    countTrue (getDataAreas (4 * 31 + 17) 31 (getFormatCoordinates (4 * 31 + 17))) =
      8 * totalCodewords.getD 31 0 + remainderBits.getD 31 0 ∧
    getDataAreas (4 * 31 + 17) 31 (getFormatCoordinates (4 * 31 + 17)) <
      2 ^ ((4 * 31 + 17) * (4 * 31 + 17)) ∧
    ∀ r < 4 * 31 + 17,
      Nat.testBit (getDataAreas (4 * 31 + 17) 31 (getFormatCoordinates (4 * 31 + 17)))
        (r * (4 * 31 + 17) + 6) = false :=
  ⟨by decide, by decide, by decide⟩

set_option maxHeartbeats 100000000 in
theorem dataAreaFacts_v32 :
    countTrue (getDataAreas (4 * 32 + 17) 32 (getFormatCoordinates (4 * 32 + 17))) =
      8 * totalCodewords.getD 32 0 + remainderBits.getD 32 0 ∧
    getDataAreas (4 * 32 + 17) 32 (getFormatCoordinates (4 * 32 + 17)) <
      2 ^ ((4 * 32 + 17) * (4 * 32 + 17)) ∧
    ∀ r < 4 * 32 + 17,
      Nat.testBit (getDataAreas (4 * 32 + 17) 32 (getFormatCoordinates (4 * 32 + 17)))
        (r * (4 * 32 + 17) + 6) = false :=
  ⟨by decide, by decide, by decide⟩

set_option maxHeartbeats 100000000 in
theorem dataAreaFacts_v33 :
    countTrue (getDataAreas (4 * 33 + 17) 33 (getFormatCoordinates (4 * 33 + 17))) =
      8 * totalCodewords.getD 33 0 + remainderBits.getD 33 0 ∧
    getDataAreas (4 * 33 + 17) 33 (getFormatCoordinates (4 * 33 + 17)) <
      2 ^ ((4 * 33 + 17) * (4 * 33 + 17)) ∧
    ∀ r < 4 * 33 + 17,
      Nat.testBit (getDataAreas (4 * 33 + 17) 33 (getFormatCoordinates (4 * 33 + 17)))
        (r * (4 * 33 + 17) + 6) = false :=
  ⟨by decide, by decide, by decide⟩

set_option maxHeartbeats 100000000 in
theorem dataAreaFacts_v34 :
    countTrue (getDataAreas (4 * 34 + 17) 34 (getFormatCoordinates (4 * 34 + 17))) =
      8 * totalCodewords.getD 34 0 + remainderBits.getD 34 0 ∧
    getDataAreas (4 * 34 + 17) 34 (getFormatCoordinates (4 * 34 + 17)) <
      2 ^ ((4 * 34 + 17) * (4 * 34 + 17)) ∧
    ∀ r < 4 * 34 + 17,
      Nat.testBit (getDataAreas (4 * 34 + 17) 34 (getFormatCoordinates (4 * 34 + 17)))
        (r * (4 * 34 + 17) + 6) = false :=
  ⟨by decide, by decide, by decide⟩

set_option maxHeartbeats 100000000 in
theorem dataAreaFacts_v35 :
    countTrue (getDataAreas (4 * 35 + 17) 35 (getFormatCoordinates (4 * 35 + 17))) =
      8 * totalCodewords.getD 35 0 + remainderBits.getD 35 0 ∧
    getDataAreas (4 * 35 + 17) 35 (getFormatCoordinates (4 * 35 + 17)) <
      2 ^ ((4 * 35 + 17) * (4 * 35 + 17)) ∧
    ∀ r < 4 * 35 + 17,
      Nat.testBit (getDataAreas (4 * 35 + 17) 35 (getFormatCoordinates (4 * 35 + 17)))
        (r * (4 * 35 + 17) + 6) = false :=
  ⟨by decide, by decide, by decide⟩

set_option maxHeartbeats 100000000 in
theorem dataAreaFacts_v36 :
    countTrue (getDataAreas (4 * 36 + 17) 36 (getFormatCoordinates (4 * 36 + 17))) =
      8 * totalCodewords.getD 36 0 + remainderBits.getD 36 0 ∧
    getDataAreas (4 * 36 + 17) 36 (getFormatCoordinates (4 * 36 + 17)) <
      2 ^ ((4 * 36 + 17) * (4 * 36 + 17)) ∧
    ∀ r < 4 * 36 + 17,
      Nat.testBit (getDataAreas (4 * 36 + 17) 36 (getFormatCoordinates (4 * 36 + 17)))
        (r * (4 * 36 + 17) + 6) = false :=
  ⟨by decide, by decide, by decide⟩

set_option maxHeartbeats 100000000 in
theorem dataAreaFacts_v37 :
    countTrue (getDataAreas (4 * 37 + 17) 37 (getFormatCoordinates (4 * 37 + 17))) =
      8 * totalCodewords.getD 37 0 + remainderBits.getD 37 0 ∧
    getDataAreas (4 * 37 + 17) 37 (getFormatCoordinates (4 * 37 + 17)) <
      2 ^ ((4 * 37 + 17) * (4 * 37 + 17)) ∧
    ∀ r < 4 * 37 + 17,
      Nat.testBit (getDataAreas (4 * 37 + 17) 37 (getFormatCoordinates (4 * 37 + 17)))
        (r * (4 * 37 + 17) + 6) = false :=
  ⟨by decide, by decide, by decide⟩

set_option maxHeartbeats 100000000 in
theorem dataAreaFacts_v38 :
    countTrue (getDataAreas (4 * 38 + 17) 38 (getFormatCoordinates (4 * 38 + 17))) =
      8 * totalCodewords.getD 38 0 + remainderBits.getD 38 0 ∧
    getDataAreas (4 * 38 + 17) 38 (getFormatCoordinates (4 * 38 + 17)) <
      2 ^ ((4 * 38 + 17) * (4 * 38 + 17)) ∧
    ∀ r < 4 * 38 + 17,
      Nat.testBit (getDataAreas (4 * 38 + 17) 38 (getFormatCoordinates (4 * 38 + 17)))
        (r * (4 * 38 + 17) + 6) = false :=
  ⟨by decide, by decide, by decide⟩

set_option maxHeartbeats 100000000 in
theorem dataAreaFacts_v39 :
    countTrue (getDataAreas (4 * 39 + 17) 39 (getFormatCoordinates (4 * 39 + 17))) =
      8 * totalCodewords.getD 39 0 + remainderBits.getD 39 0 ∧
    getDataAreas (4 * 39 + 17) 39 (getFormatCoordinates (4 * 39 + 17)) <
      2 ^ ((4 * 39 + 17) * (4 * 39 + 17)) ∧
    ∀ r < 4 * 39 + 17,
      Nat.testBit (getDataAreas (4 * 39 + 17) 39 (getFormatCoordinates (4 * 39 + 17)))
        (r * (4 * 39 + 17) + 6) = false :=
  ⟨by decide, by decide, by decide⟩

set_option maxHeartbeats 100000000 in
theorem dataAreaFacts_v40 :
    countTrue (getDataAreas (4 * 40 + 17) 40 (getFormatCoordinates (4 * 40 + 17))) =
      8 * totalCodewords.getD 40 0 + remainderBits.getD 40 0 ∧
    getDataAreas (4 * 40 + 17) 40 (getFormatCoordinates (4 * 40 + 17)) <
      2 ^ ((4 * 40 + 17) * (4 * 40 + 17)) ∧
    ∀ r < 4 * 40 + 17,
      Nat.testBit (getDataAreas (4 * 40 + 17) 40 (getFormatCoordinates (4 * 40 + 17)))
        (r * (4 * 40 + 17) + 6) = false :=
  ⟨by decide, by decide, by decide⟩

set_option maxHeartbeats 100000000 in
/-- C2 (amended): for every version 1..40 the number of true entries in the
data-area map is 8 × totalCodewords(version) + remainderBits(version) — the
claim's "exactly 8 × totalCodewords" holds only for the versions with zero
remainder bits (see `dataArea_count_not_8x_C2`) — and the coordinate sequence
produced by `getDataCoordinates` over that map has exactly that length. -/
theorem dataArea_count_C2 (version : ℕ) (h1 : 1 ≤ version) (h2 : version ≤ 40) :
    countTrue (getDataAreas (4 * version + 17) version
        (getFormatCoordinates (4 * version + 17))) =
      8 * totalCodewords.getD version 0 + remainderBits.getD version 0 ∧
    (getDataCoordinates (4 * version + 17) (getDataAreas (4 * version + 17) version
        (getFormatCoordinates (4 * version + 17)))).length =
      countTrue (getDataAreas (4 * version + 17) version
        (getFormatCoordinates (4 * version + 17))) := by
  have hfacts :
      countTrue (getDataAreas (4 * version + 17) version
          (getFormatCoordinates (4 * version + 17))) =
        8 * totalCodewords.getD version 0 + remainderBits.getD version 0 ∧
      getDataAreas (4 * version + 17) version (getFormatCoordinates (4 * version + 17)) <
        2 ^ ((4 * version + 17) * (4 * version + 17)) ∧
      ∀ r < 4 * version + 17,
        Nat.testBit
          (getDataAreas (4 * version + 17) version (getFormatCoordinates (4 * version + 17)))
          (r * (4 * version + 17) + 6) = false := by
    interval_cases version
    exacts [dataAreaFacts_v1, dataAreaFacts_v2, dataAreaFacts_v3, dataAreaFacts_v4,
      dataAreaFacts_v5, dataAreaFacts_v6, dataAreaFacts_v7, dataAreaFacts_v8,
      dataAreaFacts_v9, dataAreaFacts_v10, dataAreaFacts_v11, dataAreaFacts_v12,
      dataAreaFacts_v13, dataAreaFacts_v14, dataAreaFacts_v15, dataAreaFacts_v16,
      dataAreaFacts_v17, dataAreaFacts_v18, dataAreaFacts_v19, dataAreaFacts_v20,
      dataAreaFacts_v21, dataAreaFacts_v22, dataAreaFacts_v23, dataAreaFacts_v24,
      dataAreaFacts_v25, dataAreaFacts_v26, dataAreaFacts_v27, dataAreaFacts_v28,
      dataAreaFacts_v29, dataAreaFacts_v30, dataAreaFacts_v31, dataAreaFacts_v32,
      dataAreaFacts_v33, dataAreaFacts_v34, dataAreaFacts_v35, dataAreaFacts_v36,
      dataAreaFacts_v37, dataAreaFacts_v38, dataAreaFacts_v39, dataAreaFacts_v40]
  refine ⟨hfacts.1, ?_⟩
  rw [← getDataCoordinatesCount_eq]
  exact getDataCoordinatesCount_spec (4 * version + 17) _ (by omega) (by omega)
    hfacts.2.1 hfacts.2.2

theorem dataArea_count_C2_witness :
    countTrue (getDataAreas (4 * 7 + 17) 7 (getFormatCoordinates (4 * 7 + 17))) =
      8 * totalCodewords.getD 7 0 + remainderBits.getD 7 0 ∧
    (getDataCoordinates (4 * 7 + 17) (getDataAreas (4 * 7 + 17) 7
        (getFormatCoordinates (4 * 7 + 17)))).length =
      countTrue (getDataAreas (4 * 7 + 17) 7 (getFormatCoordinates (4 * 7 + 17))) :=
  dataArea_count_C2 7 (by decide) (by decide)

theorem robinStep_rest (lists : List (List ℕ)) (index : ℕ) :
    (robinStep lists index).2.1 = lists.map List.tail := by
  induction lists generalizing index with
  | nil => rfl
  | cons l rest ih =>
    cases l with
    | nil => simp [robinStep, ih]
    | cons h t => simp [robinStep, ih]

theorem robinStep_fst (lists : List (List ℕ)) (index : ℕ) :
    (robinStep lists index).1.map Prod.fst = lists.filterMap List.head? := by
  induction lists generalizing index with
  | nil => rfl
  | cons l rest ih =>
    cases l with
    | nil => simp [robinStep, ih]
    | cons h t => simp [robinStep, ih]

theorem robinStep_snd (lists : List (List ℕ)) (index : ℕ) :
    (robinStep lists index).1.map Prod.snd =
      List.range' index (robinStep lists index).1.length := by
  induction lists generalizing index with
  | nil => rfl
  | cons l rest ih =>
    cases l with
    | nil => simp [robinStep, ih]
    | cons h t => simp [robinStep, ih, List.range']

theorem robinStep_idx (lists : List (List ℕ)) (index : ℕ) :
    (robinStep lists index).2.2 = index + (robinStep lists index).1.length := by
  induction lists generalizing index with
  | nil => simp [robinStep]
  | cons l rest ih =>
    cases l with
    | nil => simpa [robinStep] using ih index
    | cons h t =>
      simp [robinStep, ih (index + 1)]
      omega

theorem heads_tails_perm (lists : List (List ℕ)) :
    lists.flatten.Perm (lists.filterMap List.head? ++ (lists.map List.tail).flatten) := by
  induction lists with
  | nil => rfl
  | cons l rest ih =>
    cases l with
    | nil => simpa using ih
    | cons h t =>
      simp only [List.filterMap_cons, List.head?_cons, List.map_cons, List.tail_cons,
        List.flatten_cons, List.cons_append]
      refine List.Perm.cons h ?_
      refine (ih.append_left t).trans ?_
      rw [← List.append_assoc, ← List.append_assoc]
      exact List.perm_append_comm.append_right _

theorem sumLen_tails (lists : List (List ℕ)) :
    ((lists.map List.tail).map List.length).sum + (lists.filterMap List.head?).length =
      (lists.map List.length).sum := by
  induction lists with
  | nil => rfl
  | cons l rest ih =>
    cases l with
    | nil => simpa using ih
    | cons h t =>
      simp only [List.map, List.tail, List.filterMap_cons, List.head?, List.sum_cons,
        List.length_cons]
      omega

theorem notAllEmpty_heads (lists : List (List ℕ)) (h : lists.all List.isEmpty = false) :
    0 < (lists.filterMap List.head?).length := by
  induction lists with
  | nil => simp at h
  | cons l rest ih =>
    cases l with
    | nil =>
      simp only [List.all_cons, List.isEmpty_nil, Bool.true_and] at h
      simpa using ih h
    | cons a t => simp

theorem allEmpty_flatten (lists : List (List ℕ)) (h : lists.all List.isEmpty = true) :
    lists.flatten = [] := by
  induction lists with
  | nil => rfl
  | cons l rest ih =>
    simp only [List.all_cons, Bool.and_eq_true, List.isEmpty_iff] at h
    simp [h.1, ih h.2]

theorem roundRobin_spec :
    ∀ (fuel : ℕ) (lists : List (List ℕ)) (index : ℕ),
      lists.flatten.length ≤ fuel →
      ((roundRobin fuel lists index).map Prod.fst).Perm lists.flatten ∧
      (roundRobin fuel lists index).map Prod.snd =
        List.range' index lists.flatten.length := by
  intro fuel
  induction fuel with
  | zero =>
    intro lists index h
    have hnil : lists.flatten = [] := List.eq_nil_of_length_eq_zero (by omega)
    simp [roundRobin, hnil]
  | succ fuel ih =>
    intro lists index h
    by_cases hall : lists.all List.isEmpty
    · have hnil := allEmpty_flatten lists hall
      simp [roundRobin, hall, hnil]
    · have hall' : lists.all List.isEmpty = false := by simpa using hall
      have hheads := notAllEmpty_heads lists hall'
      have hsum := sumLen_tails lists
      have hflat : lists.flatten.length = (lists.map List.length).sum :=
        List.length_flatten lists
      have hflat' := List.length_flatten (lists.map List.tail)
      have hlen : (robinStep lists index).1.length =
          (lists.filterMap List.head?).length := by
        rw [← robinStep_fst lists index, List.length_map]
      have hih := ih (lists.map List.tail)
        (index + (lists.filterMap List.head?).length) (by omega)
      simp only [roundRobin, hall', Bool.false_eq_true, if_false, List.map_append]
      rw [robinStep_fst, robinStep_snd, robinStep_rest, robinStep_idx, hlen]
      constructor
      · exact (hih.1.append_left _).trans (heads_tails_perm lists).symm
      · rw [hih.2, List.range'_append_1]
        congr 1
        omega

theorem blockListsAux_flatten (nums : List ℕ) :
    ∀ index : ℕ, (blockListsAux index nums).flatten = List.range' index nums.sum := by
  induction nums with
  | nil => intro index; rfl
  | cons num rest ih =>
    intro index
    simp only [blockListsAux, List.flatten_cons, ih (index + num), List.sum_cons]
    have hmap : (List.range num).map (fun n => n + index) = List.range' index num := by
      rw [List.range'_eq_map_range]
      exact List.map_congr_left fun x _ => Nat.add_comm x index
    rw [hmap, List.range'_append_1]
    congr 1
    omega

theorem foldl_set_length (ps : List (ℕ × ℕ)) (arr : List ℕ) :
    (ps.foldl (fun a q => a.set q.1 q.2) arr).length = arr.length := by
  induction ps generalizing arr with
  | nil => rfl
  | cons q rest ih => simp [List.foldl_cons, ih, List.length_set]

theorem foldl_set_getD_not_mem (ps : List (ℕ × ℕ)) (arr : List ℕ) (i : ℕ)
    (h : i ∉ ps.map Prod.fst) :
    (ps.foldl (fun a q => a.set q.1 q.2) arr).getD i 0 = arr.getD i 0 := by
  induction ps generalizing arr with
  | nil => rfl
  | cons q rest ih =>
    simp only [List.map_cons, List.mem_cons, not_or] at h
    rw [List.foldl_cons, ih _ h.2, List.getD_eq_getElem?_getD, List.getElem?_set_ne (Ne.symm h.1),
      ← List.getD_eq_getElem?_getD]

theorem foldl_set_getD_mem (ps : List (ℕ × ℕ)) (arr : List ℕ) (p : ℕ × ℕ)
    (hnd : (ps.map Prod.fst).Nodup) (hmem : p ∈ ps) (hlt : p.1 < arr.length) :
    (ps.foldl (fun a q => a.set q.1 q.2) arr).getD p.1 0 = p.2 := by
  induction ps generalizing arr with
  | nil => simp at hmem
  | cons q rest ih =>
    simp only [List.map_cons, List.nodup_cons] at hnd
    rcases List.mem_cons.mp hmem with rfl | hmem'
    · rw [List.foldl_cons, foldl_set_getD_not_mem rest _ p.1 hnd.1,
        List.getD_eq_getElem?_getD, List.getElem?_set_self (by omega)]
      rfl
    · rw [List.foldl_cons]
      exact ih _ hnd.2 hmem' (by rw [List.length_set]; omega)

theorem take_eq_map_range (l : List ℕ) (t : ℕ) (h : t ≤ l.length) :
    l.take t = (List.range t).map (fun i => l.getD i 0) := by
  refine List.ext_getElem (by simp [List.length_take]; omega) ?_
  intro i h1 h2
  rw [List.getElem_take, List.getElem_map, List.getElem_range,
    List.getD_eq_getElem l 0 (by simp [List.length_take] at h1; omega)]

theorem interleavingOf_take_perm (maxN : ℕ) (nums : List ℕ) (h : nums.sum ≤ maxN) :
    ((interleavingOf maxN nums).take nums.sum).Perm (List.range nums.sum) := by
  have hflat : (blockListsAux 0 nums).flatten = List.range nums.sum := by
    rw [blockListsAux_flatten nums 0, List.range_eq_range']
  have hspec := roundRobin_spec (nums.sum + 1) (blockListsAux 0 nums) 0
    (by rw [hflat, List.length_range]; omega)
  rw [hflat] at hspec
  have hfst : ((roundRobin (nums.sum + 1) (blockListsAux 0 nums) 0).map Prod.fst).Perm
      (List.range nums.sum) := hspec.1
  have hnd : ((roundRobin (nums.sum + 1) (blockListsAux 0 nums) 0).map Prod.fst).Nodup :=
    hfst.nodup_iff.mpr (List.nodup_range nums.sum)
  have hlen : (interleavingOf maxN nums).length = maxN := by
    rw [interleavingOf, foldl_set_length, List.length_replicate]
  have h1 : (interleavingOf maxN nums).take nums.sum =
      (List.range nums.sum).map (fun i => (interleavingOf maxN nums).getD i 0) :=
    take_eq_map_range _ _ (by omega)
  have h2 : ((roundRobin (nums.sum + 1) (blockListsAux 0 nums) 0).map Prod.fst).map
        (fun i => (interleavingOf maxN nums).getD i 0) =
      (roundRobin (nums.sum + 1) (blockListsAux 0 nums) 0).map Prod.snd := by
    rw [List.map_map]
    refine List.map_congr_left fun p hp => ?_
    have hp1 : p.1 ∈ (roundRobin (nums.sum + 1) (blockListsAux 0 nums) 0).map Prod.fst :=
      List.mem_map_of_mem Prod.fst hp
    have hp1' : p.1 < nums.sum := List.mem_range.mp (hfst.mem_iff.mp hp1)
    exact foldl_set_getD_mem _ _ p hnd hp
      (by rw [List.length_replicate]; omega)
  rw [h1]
  refine (hfst.symm.map (fun i => (interleavingOf maxN nums).getD i 0)).trans ?_
  rw [h2, hspec.2, List.length_range, ← List.range_eq_range']

theorem le_foldr_max (l : List ℕ) (x : ℕ) (h : x ∈ l) : x ≤ l.foldr max 0 := by
  induction l with
  | nil => simp at h
  | cons a rest ih =>
    rcases List.mem_cons.mp h with rfl | h'
    · exact le_max_left _ _
    · exact le_trans (ih h') (le_max_right _ _)

/-- C5: for every (version, level) pair in the codeword-count table, the
interleaving map of `getCodewords`, restricted to indices
`0 .. totalDataCodewords - 1`, is a permutation of that index range. -/
theorem interleaving_permutation_C5 (version level : ℕ)
    (h1 : 1 ≤ version) (h2 : version ≤ 40) (h3 : level < 4) :
    ((interleavings version level).take (numDataCodewords version level)).Perm
      (List.range (numDataCodewords version level)) := by
  refine interleavingOf_take_perm _ _ ?_
  have hlen : (getNumCodewordsList version).length = 4 := by
    interval_cases version <;> rfl
  have hmem : ((getNumCodewordsList version).getD level []).sum ∈
      (getNumCodewordsList version).map List.sum := by
    refine List.mem_map_of_mem List.sum ?_
    rw [List.getD_eq_getElem _ _ (by omega)]
    exact List.getElem_mem _
  exact le_foldr_max _ _ hmem

theorem interleaving_permutation_C5_witness :
    1 ≤ 5 ∧ 5 ≤ 40 ∧ 2 < 4 ∧
    ((interleavings 5 2).take (numDataCodewords 5 2)).Perm
      (List.range (numDataCodewords 5 2)) :=
  ⟨by decide, by decide, by decide,
    interleaving_permutation_C5 5 2 (by decide) (by decide) (by decide)⟩

theorem getDecodedData_unknown (L version length : ℕ) (codewords : List (List ℕ)) :
    getDecodedData L version codewords EncodingMode.Unknown length = "" := by
  unfold getDecodedData
  generalize List.range ((L * L - 225) / 12) = l
  induction l with
  | nil => rfl
  | cons a rest ih => simp [decodedBlock, ih]

/-- C7: a codeword stream whose first 4 bits are none of 0001, 0010, 0100 is
assigned mode Unknown, and the decoded message is the empty string. -/
theorem unknown_mode_empty_C7 (L version length : ℕ) (codewords : List (List ℕ))
    (h1 : (codewords.getD 0 []).take 4 ≠ [0, 0, 0, 1])
    (h2 : (codewords.getD 0 []).take 4 ≠ [0, 0, 1, 0])
    (h3 : (codewords.getD 0 []).take 4 ≠ [0, 1, 0, 0]) :
    getEncodingMode codewords = EncodingMode.Unknown ∧
    getDecodedData L version codewords (getEncodingMode codewords) length = "" := by
  have hmode : getEncodingMode codewords = EncodingMode.Unknown := by
    unfold getEncodingMode
    rw [if_neg h1, if_neg h2, if_neg h3]
  exact ⟨hmode, by rw [hmode]; exact getDecodedData_unknown L version length codewords⟩

theorem unknown_mode_empty_C7_witness :
    ([[1, 1, 1, 1, 0, 0, 0, 0]].getD 0 []).take 4 ≠ [0, 0, 0, 1] ∧
    ([[1, 1, 1, 1, 0, 0, 0, 0]].getD 0 []).take 4 ≠ [0, 0, 1, 0] ∧
    ([[1, 1, 1, 1, 0, 0, 0, 0]].getD 0 []).take 4 ≠ [0, 1, 0, 0] ∧
    (getEncodingMode [[1, 1, 1, 1, 0, 0, 0, 0]] = EncodingMode.Unknown ∧
      getDecodedData 21 1 [[1, 1, 1, 1, 0, 0, 0, 0]]
        (getEncodingMode [[1, 1, 1, 1, 0, 0, 0, 0]]) 7 = "") :=
  ⟨by decide, by decide, by decide,
    unknown_mode_empty_C7 21 1 7 [[1, 1, 1, 1, 0, 0, 0, 0]]
      (by decide) (by decide) (by decide)⟩

/-- C10: a bit whose codeword row lies past the end of the codeword list
evaluates to 0 rather than failing. -/
theorem bit_past_stream_zero_C10 (codewords : List (List ℕ)) (n : ℕ)
    (h : codewords.length ≤ n / 8) : bitAt codewords n = 0 := by
  unfold bitAt
  rw [List.getElem?_eq_none h]

theorem bit_past_stream_zero_C10_witness :
    ([[1, 1, 1, 1, 1, 1, 1, 1]] : List (List ℕ)).length ≤ 8 / 8 ∧
    bitAt [[1, 1, 1, 1, 1, 1, 1, 1]] 8 = 0 :=
  ⟨by decide, bit_past_stream_zero_C10 [[1, 1, 1, 1, 1, 1, 1, 1]] 8 (by decide)⟩

/-- C6: the Numeric decoder does not zero-pad.  On a stream declaring
Numeric mode and length 3 whose single full 10-bit group holds the value 5,
the decoded message is "5", while the spec's zero-padded rendering of the
group is "005". -/
theorem numeric_padding_bug_C6 :
    getEncodingMode [[0,0,0,1,0,0,0,0],[0,0,0,0,1,1,0,0],[0,0,0,0,0,1,0,1]] =
      EncodingMode.Numeric ∧
    getLength [[0,0,0,1,0,0,0,0],[0,0,0,0,1,1,0,0],[0,0,0,0,0,1,0,1]] 1
      EncodingMode.Numeric = 3 ∧
    getDecodedData 21 1 [[0,0,0,1,0,0,0,0],[0,0,0,0,1,1,0,0],[0,0,0,0,0,1,0,1]]
      EncodingMode.Numeric 3 = "5" ∧
    specNumericGroupRender 5 = "005" ∧
    ("5" : String) ≠ "005" :=
  ⟨by decide, by decide, by decide, by decide, by decide⟩

/-- C8: `toTable` fails exactly on an invalid grid — side length below 21,
above 177, or not ≡ 1 (mod 4), or some row of a different length — and the
validation precedes the decoding; every grid passing it is decoded. -/
theorem toTable_validation_C8 (qr : List (List ℕ)) :
    (toTable qr).isOk = true ↔
      (21 ≤ qr.length ∧ qr.length ≤ 177 ∧ qr.length % 4 = 1 ∧
        ∀ row ∈ qr, row.length = qr.length) := by
  unfold toTable
  by_cases h1 : 21 ≤ qr.length ∧ qr.length ≤ 177 ∧ qr.length % 4 = 1
  · rw [if_neg (not_not_intro h1)]
    by_cases h2 : qr.any (fun row => row.length != qr.length) = true
    · rw [if_pos h2]
      simp only [List.any_eq_true, bne_iff_ne] at h2
      obtain ⟨row, hrow, hne⟩ := h2
      simp only [Except.isOk]
      constructor
      · intro hfalse; cases hfalse
      · intro hcontr
        exact absurd (hcontr.2.2.2 row hrow) hne
    · rw [if_neg h2]
      simp only [List.any_eq_true, bne_iff_ne, not_exists, not_and, not_not] at h2
      simp only [Except.isOk]
      exact ⟨fun _ => ⟨h1.1, h1.2.1, h1.2.2, h2⟩, fun _ => rfl⟩
  · rw [if_pos h1]
    simp only [Except.isOk]
    constructor
    · intro hfalse; cases hfalse
    · intro hcontr
      exact absurd ⟨hcontr.1, hcontr.2.1, hcontr.2.2.1⟩ h1
